import Mathlib

/-!
Verification of the FM drum-synth voice engine (`src/audio/FMSynth.ts`).

The Web Audio objects the engine manipulates are embedded shallowly:

* an `AudioParam` is its base `value` plus the list of automation events
  scheduled on it (`setValueAtTime` / `linearRampToValueAtTime` append,
  `cancelScheduledValues t` drops every event at time `>= t`, and reading
  `.value` evaluates the timeline at the current clock time);
* an audio node (`ANode`) is a record with an identity, a kind, its
  parameters, and its scheduled start/stop times;
* the audio graph's connections are a list of `(source node id, target)`
  edges; `node.disconnect()` removes every edge whose source is that node;
* the `FMSynth` class instance is a `VoiceState` record mirroring its
  fields; `window.setTimeout` handles are modelled as `Option` fields
  (`none` = no pending timer) whose callbacks are separate step functions
  (`FMSynth.fireAutoStop`, `FMSynth.fireCleanupTimer`, ...), and the
  anonymous (uncancelable) timeout armed by `noteOff` is logged in
  `pendingTimeouts`.

Times and sample values are rationals; the audio-clock time at which a
method runs is passed explicitly as `now`.
-/

/-- One automation event scheduled on an `AudioParam`:
`setValue v t` models `setValueAtTime(v, t)` and `linearRamp v t` models
`linearRampToValueAtTime(v, t)`. -/
inductive AutomationEvent
  | setValue (v t : ℚ)
  | linearRamp (v t : ℚ)
  deriving DecidableEq, Repr

/-- The scheduled time of an automation event. -/
def AutomationEvent.time : AutomationEvent → ℚ
  | .setValue _ t => t
  | .linearRamp _ t => t

/-- The target value of an automation event. -/
def AutomationEvent.target : AutomationEvent → ℚ
  | .setValue v _ => v
  | .linearRamp v _ => v

/-- An `AudioParam`: the directly assigned `value` plus the scheduled
automation timeline (kept in scheduling order; the engine always schedules
in nondecreasing time order). -/
structure AudioParam where
  value : ℚ
  events : List AutomationEvent
  deriving DecidableEq, Repr

/-- `param.setValueAtTime(v, t)`. -/
def AudioParam.setValueAtTime (p : AudioParam) (v t : ℚ) : AudioParam :=
  { p with events := p.events ++ [AutomationEvent.setValue v t] }

/-- `param.linearRampToValueAtTime(v, t)`. -/
def AudioParam.linearRampToValueAtTime (p : AudioParam) (v t : ℚ) : AudioParam :=
  { p with events := p.events ++ [AutomationEvent.linearRamp v t] }

/-- `param.cancelScheduledValues(t)`: removes every event scheduled at or
after `t`. -/
def AudioParam.cancelScheduledValues (p : AudioParam) (t : ℚ) : AudioParam :=
  { p with events := p.events.filter (fun e => decide (e.time < t)) }

/-- Evaluate a (time-ordered) automation timeline at time `t`, starting
from current value `cur` reached at time `curTime` (`none` before any
event).  A `setValue` holds its value from its time on; a `linearRamp`
interpolates linearly from the previous event to its own time. -/
def evalEvents (t : ℚ) : ℚ → Option ℚ → List AutomationEvent → ℚ
  | cur, _, [] => cur
  | cur, curTime, e :: rest =>
    if e.time ≤ t then
      evalEvents t e.target (some e.time) rest
    else
      match e, curTime with
      | AutomationEvent.linearRamp v te, some t0 =>
          if t0 < te then cur + (v - cur) * ((t - t0) / (te - t0)) else v
      | _, _ => cur

/-- Reading `param.value` at clock time `t`: the computed value of the
automation timeline (the base value if nothing is scheduled before `t`). -/
def AudioParam.valueAt (p : AudioParam) (t : ℚ) : ℚ :=
  evalEvents t p.value none p.events

/-- A fresh `AudioParam` holding default value `v` with nothing scheduled. -/
def AudioParam.default (v : ℚ) : AudioParam :=
  { value := v, events := [] }

/-- `OperatorParams` (src/audio/types.ts).  `frequency` is carried by the
interface but unused by the synth; `useNoise` is optional in TS and
modelled as a plain `Bool` (absent = `false`). -/
structure OperatorParams where
  frequency : ℚ
  ratio : ℚ
  level : ℚ
  attack : ℚ
  decay : ℚ
  sustain : ℚ
  release : ℚ
  feedbackAmount : ℚ
  useNoise : Bool
  deriving DecidableEq, Repr

/-- `LFOParams` (src/audio/types.ts). -/
structure LFOParams where
  frequency : ℚ
  depth : ℚ
  deriving DecidableEq, Repr

/-- `PitchEnvelopeParams` (src/audio/types.ts). -/
structure PitchEnvelopeParams where
  attack : ℚ
  decay : ℚ
  depth : ℚ
  deriving DecidableEq, Repr

/-- The kinds of audio node the voice engine creates.  A noise source is an
`AudioBufferSourceNode`: unlike an `OscillatorNode` it has no `frequency`
`AudioParam`, which matters when something tries to connect to one. -/
inductive NodeKind
  | oscillator
  | noiseSource
  | gainNode
  | delayNode
  | dynamicsCompressor
  deriving DecidableEq, Repr

/-- An audio node: identity, kind, the parameters the engine touches
(`frequency`, `gain`, `delayTime`; only the kind-appropriate ones are ever
used), scheduled start/stop times for source nodes, and the static
configuration constants assigned on compressor nodes. -/
structure ANode where
  id : ℕ
  kind : NodeKind
  frequency : AudioParam
  gain : AudioParam
  delayTime : AudioParam
  startTime : Option ℚ
  stopTime : Option ℚ
  settings : List (String × ℚ)
  deriving DecidableEq, Repr

/-- The target of a graph connection: another node's input, or an
oscillator node's `frequency` parameter. -/
inductive ConnTarget
  | toNode (id : ℕ)
  | toFreqParam (id : ℕ)
  deriving DecidableEq, Repr

/-- A fresh `GainNode` whose `gain.value` has been assigned `v`. -/
def mkGainNode (id : ℕ) (v : ℚ) : ANode :=
  { id := id, kind := NodeKind.gainNode,
    frequency := AudioParam.default 440, gain := AudioParam.default v,
    delayTime := AudioParam.default 0,
    startTime := none, stopTime := none, settings := [] }

/-- A fresh `DelayNode` whose `delayTime.value` has been assigned `d`. -/
def mkDelayNode (id : ℕ) (d : ℚ) : ANode :=
  { id := id, kind := NodeKind.delayNode,
    frequency := AudioParam.default 440, gain := AudioParam.default 1,
    delayTime := AudioParam.default d,
    startTime := none, stopTime := none, settings := [] }

/-- A fresh `DynamicsCompressorNode` with the given assigned settings. -/
def mkCompressorNode (id : ℕ) (settings : List (String × ℚ)) : ANode :=
  { id := id, kind := NodeKind.dynamicsCompressor,
    frequency := AudioParam.default 440, gain := AudioParam.default 1,
    delayTime := AudioParam.default 0,
    startTime := none, stopTime := none, settings := settings }

/-- The `FMSynth` instance state (fields of the class, plus the shallow
graph model).  Fixed node identities: `0` = `audioContext.destination`,
`1` = `masterGain`, `2` = `compressor`, `3` = `limiter`; dynamically
created nodes get identities from `nextId` up.  `looseNodes` holds nodes
the engine creates but never registers for teardown (the algorithm
router's modulation-scaling gain stages).  `cleanupTimer` and
`autoStopTimer` hold the delay (in milliseconds) of the pending
`setTimeout`, or `none`; `pendingTimeouts` logs the delays of the
uncancelable timeouts armed by `noteOff`. -/
structure VoiceState where
  nextId : ℕ
  conns : List (ℕ × ConnTarget)
  operators : List ANode
  gains : List ANode
  envelopes : List ANode
  feedbackNodes : List ANode
  feedbackGains : List ANode
  looseNodes : List ANode
  lfo : Option ANode
  lfoGain : Option ANode
  masterGain : ANode
  compressor : ANode
  limiter : ANode
  isPlaying : Bool
  releaseScheduled : Bool
  currentParams : List OperatorParams
  cleanupTimer : Option ℚ
  autoStopTimer : Option ℚ
  pendingTimeouts : List ℚ
  deriving DecidableEq, Repr

/-- The `FMSynth` constructor: builds the fixed output-shaping chain
`masterGain -> compressor -> limiter -> destination` with the configured
dynamics settings. -/
def FMSynth.init : VoiceState :=
  { nextId := 4
    conns := [(1, ConnTarget.toNode 2), (2, ConnTarget.toNode 3), (3, ConnTarget.toNode 0)]
    operators := [], gains := [], envelopes := []
    feedbackNodes := [], feedbackGains := [], looseNodes := []
    lfo := none, lfoGain := none
    masterGain := mkGainNode 1 (3 / 20)
    compressor := mkCompressorNode 2
      [("threshold", -24), ("knee", 30), ("compressionRatio", 12),
       ("attack", 3 / 1000), ("release", 1 / 4)]
    limiter := mkCompressorNode 3
      [("threshold", -6), ("knee", 0), ("compressionRatio", 20),
       ("attack", 1 / 1000), ("release", 1 / 100)]
    isPlaying := false, releaseScheduled := false
    currentParams := []
    cleanupTimer := none, autoStopTimer := none
    pendingTimeouts := [] }

/-- `connectAnalyzer(analyzer)`: taps the compressor's output to the
externally supplied analyser node (identified by `analyzerId`). -/
def FMSynth.connectAnalyzer (analyzerId : ℕ) (s : VoiceState) : VoiceState :=
  { s with conns := s.conns ++ [(2, ConnTarget.toNode analyzerId)] }

/-- `connectSidechainGain(gain)`: disconnects `limiter -> destination` and
reroutes `limiter -> gain -> destination` through the externally supplied
gain node (identified by `gainId`). -/
def FMSynth.connectSidechainGain (gainId : ℕ) (s : VoiceState) : VoiceState :=
  { s with conns :=
      s.conns.filter (fun e => e ≠ (3, ConnTarget.toNode 0))
        ++ [(3, ConnTarget.toNode gainId), (gainId, ConnTarget.toNode 0)] }

/-- `Math.max(...)` over a nonempty list of rationals (the engine only ever
takes the maximum of the four operators' `release` values; the JS
`-Infinity` result on an empty list is unreachable here). -/
def listMax : List ℚ → ℚ
  | [] => 0
  | x :: xs => xs.foldl max x

/-- `Math.max(...operatorParams.map(op => op.release))`. -/
def maxRelease (ps : List OperatorParams) : ℚ :=
  listMax (ps.map OperatorParams.release)

/-- The node identities of every node registered for teardown (the five
live-node registries plus the LFO pair). -/
def registeredIds (s : VoiceState) : List ℕ :=
  (s.operators ++ s.gains ++ s.envelopes ++ s.feedbackNodes ++ s.feedbackGains).map ANode.id
    ++ (s.lfo.toList ++ s.lfoGain.toList).map ANode.id

/-- Remove every connection whose source node is in `ids` (the effect of
calling `disconnect()` on each of those nodes). -/
def removeConnsFrom (ids : List ℕ) (conns : List (ℕ × ConnTarget)) : List (ℕ × ConnTarget) :=
  conns.filter (fun e => !(ids.contains e.1))

/-- `noteOff`'s per-operator release (FMSynth.ts lines 72-79): read the
envelope gain's current computed value, cancel everything scheduled from
`now` on, pin the current value, and ramp linearly to `0` over this
operator's own `release` time. -/
def releaseEnvelope (now : ℚ) (params : OperatorParams) (env : ANode) : ANode :=
  let currentGain := env.gain.valueAt now
  let g := env.gain.cancelScheduledValues now
  let g := g.setValueAtTime currentGain now
  let g := g.linearRampToValueAtTime 0 (now + params.release)
  { env with gain := g }

/-- `this.currentParams.forEach((params, i) => if (this.envelopes[i]) ...)`:
apply the release ramp to the envelope at each index that has both a
parameter record and a registered envelope; leave the rest untouched. -/
def applyReleaseRamps (now : ℚ) : List OperatorParams → List ANode → List ANode
  | p :: ps, env :: envs => releaseEnvelope now p env :: applyReleaseRamps now ps envs
  | _ :: _, [] => []
  | [], envs => envs

/-- `FMSynth.noteOff()` running at clock time `now`.  Guarded no-op unless
the voice is playing and no release is scheduled yet; otherwise ramps every
operator's envelope to `0` over its own release time and arms the
(uncancelable, anonymous) teardown timeout for `maxRelease*1000 + 100`
milliseconds. -/
def FMSynth.noteOff (now : ℚ) (s : VoiceState) : VoiceState :=
  if !s.isPlaying || s.releaseScheduled then s
  else
    { s with
      releaseScheduled := true
      envelopes := applyReleaseRamps now s.currentParams s.envelopes
      pendingTimeouts := s.pendingTimeouts ++ [maxRelease s.currentParams * 1000 + 100] }

/-- The quick-fade applied to one envelope by `cleanupImmediate` (1 ms). -/
def quickFadeEnvelope (now : ℚ) (env : ANode) : ANode :=
  let currentGain := env.gain.valueAt now
  let g := env.gain.cancelScheduledValues now
  let g := g.setValueAtTime currentGain now
  let g := g.linearRampToValueAtTime 0 (now + 1 / 1000)
  { env with gain := g }

/-- `FMSynth.cleanupImmediate()` (used when a new note starts while one is
live): fade every envelope out over 1 ms, stop every source shortly after,
disconnect every registered node, and empty all registries.  The stopped,
fully disconnected nodes drop out of the model along with their registry
entries. -/
def FMSynth.cleanupImmediate (_now : ℚ) (s : VoiceState) : VoiceState :=
  { s with
    conns := removeConnsFrom (registeredIds s) s.conns
    operators := [], gains := [], envelopes := []
    feedbackNodes := [], feedbackGains := []
    lfo := none, lfoGain := none }

/-- The 5 ms fade applied to one envelope by `cleanup`. -/
def slowFadeEnvelope (now : ℚ) (env : ANode) : ANode :=
  let g := env.gain.cancelScheduledValues now
  let g := g.setValueAtTime (env.gain.valueAt now) now
  let g := g.linearRampToValueAtTime 0 (now + 5 / 1000)
  { env with gain := g }

/-- `FMSynth.cleanup()`: fade every envelope out over 5 ms and arm the
cancelable `cleanupTimer` (`fadeTime*1000 + 5` = 10 ms) that will stop and
disconnect everything. -/
def FMSynth.cleanup (now : ℚ) (s : VoiceState) : VoiceState :=
  { s with
    envelopes := s.envelopes.map (slowFadeEnvelope now)
    cleanupTimer := some 10 }

/-- The `cleanupTimer` callback firing (the `setTimeout` body inside
`cleanup`): stop and disconnect every registered node and empty the
registries.  Fires only while the handle is still pending — a cleared
timer never runs. -/
def FMSynth.fireCleanupTimer (s : VoiceState) : VoiceState :=
  if s.cleanupTimer.isSome then
    { s with
      conns := removeConnsFrom (registeredIds s) s.conns
      operators := [], gains := [], envelopes := []
      feedbackNodes := [], feedbackGains := []
      lfo := none, lfoGain := none
      cleanupTimer := none }
  else s

/-- The `autoStopTimer` callback firing at clock time `now` (armed by
`trigger` for `(duration + maxRelease)*1000 + 100` ms): if the note is
still playing and no explicit release was scheduled, run `cleanup` and
leave the Sounding state. -/
def FMSynth.fireAutoStop (now : ℚ) (s : VoiceState) : VoiceState :=
  if s.autoStopTimer.isSome then
    let s := { s with autoStopTimer := none }
    if s.isPlaying && !s.releaseScheduled then
      { FMSynth.cleanup now s with isPlaying := false }
    else s
  else s

/-- The anonymous timeout armed by `noteOff` firing at clock time `now`:
run `cleanup` and reset both state flags.  This handle is never stored, so
`trigger`'s timer cancellation cannot reach it. -/
def FMSynth.fireNoteOffTimeout (now : ℚ) (s : VoiceState) : VoiceState :=
  let s := FMSynth.cleanup now s
  { s with isPlaying := false, releaseScheduled := false }

/-- An oscillator's `frequency` parameter as `trigger` programs it:
assigned `baseFrequency * ratio`, then, when a pitch envelope with
positive depth is supplied, overlaid with the start/attack/decay pitch
ramp (FMSynth.ts lines 145-159). -/
def oscFrequencyParam (now baseFrequency : ℚ) (params : OperatorParams)
    (pitchEnvelope : Option PitchEnvelopeParams) : AudioParam :=
  let f : AudioParam := { value := baseFrequency * params.ratio, events := [] }
  match pitchEnvelope with
  | some pe =>
    if 0 < pe.depth then
      let pitchDepth := baseFrequency * params.ratio * pe.depth
      let f := f.setValueAtTime (baseFrequency * params.ratio + pitchDepth) now
      let f := f.linearRampToValueAtTime
        (baseFrequency * params.ratio + pitchDepth * (1 / 2)) (now + pe.attack)
      f.linearRampToValueAtTime (baseFrequency * params.ratio) (now + pe.attack + pe.decay)
    else f
  | none => f

/-- A fresh `OscillatorNode` with `frequency.value` assigned `freqValue`. -/
def mkOscillatorNode (id : ℕ) (freqValue : ℚ) : ANode :=
  { id := id, kind := NodeKind.oscillator,
    frequency := { value := freqValue, events := [] },
    gain := AudioParam.default 1, delayTime := AudioParam.default 0,
    startTime := none, stopTime := none, settings := [] }

/-- The source node of operator `i`: a looping noise buffer source when
`i = 0` and `useNoise` is set, otherwise an oscillator at
`baseFrequency * ratio` (with any pitch-envelope automation).  The
`start(currentTime)` / `stop(oscStopTime)` calls that `trigger` makes
after routing are recorded here at construction: nothing reads the node
in between, so the record carries its final schedule. -/
def mkOperatorSource (now baseFrequency stopAt : ℚ)
    (pitchEnvelope : Option PitchEnvelopeParams) (i : ℕ) (params : OperatorParams)
    (id : ℕ) : ANode :=
  { id := id,
    kind := if i == 0 && params.useNoise then NodeKind.noiseSource else NodeKind.oscillator,
    frequency :=
      if i == 0 && params.useNoise then AudioParam.default 440
      else oscFrequencyParam now baseFrequency params pitchEnvelope,
    gain := AudioParam.default 1, delayTime := AudioParam.default 0,
    startTime := some now, stopTime := some stopAt, settings := [] }

/-- The full ADSR schedule `trigger` programs on an envelope gain
(FMSynth.ts lines 197-222): hold `0` at `now`, ramp to `1` by
`now + max 0 attack`, ramp to `sustain` by the decay end, pin `sustain`
at note end, ramp to `0` by note end + `release`. -/
def envelopeSchedule (now duration : ℚ) (params : OperatorParams) (p : AudioParam) : AudioParam :=
  let attackTime := max 0 params.attack
  let decayTime := max 0 params.decay
  let attackEnd := now + attackTime
  let decayEnd := attackEnd + decayTime
  let noteEnd := now + duration
  let p := p.setValueAtTime 0 now
  let p := p.linearRampToValueAtTime 1 attackEnd
  let p := p.linearRampToValueAtTime params.sustain decayEnd
  let p := p.setValueAtTime params.sustain noteEnd
  p.linearRampToValueAtTime 0 (noteEnd + params.release)

/-- One iteration of `trigger`'s operator-construction loop: build the
source, envelope gain (value `0`, ADSR scheduled), output gain (value
`level`), feedback delay (1 ms) and feedback gain (`feedbackAmount`);
wire the feedback loop and the main path; push everything onto the live
registries.  Returns the source and output-gain records (the loop's
`tempOperators` / `tempGains` entries) with the updated state. -/
def FMSynth.addOperator (now baseFrequency duration stopAt : ℚ)
    (pitchEnvelope : Option PitchEnvelopeParams) (i : ℕ) (params : OperatorParams)
    (s : VoiceState) : ANode × ANode × VoiceState :=
  let src := mkOperatorSource now baseFrequency stopAt pitchEnvelope i params s.nextId
  let envGain : ANode :=
    { mkGainNode (s.nextId + 1) 0 with
      gain := envelopeSchedule now duration params (AudioParam.default 0) }
  let opGain := mkGainNode (s.nextId + 2) params.level
  let fbDelay := mkDelayNode (s.nextId + 3) (1 / 1000)
  let fbGain := mkGainNode (s.nextId + 4) params.feedbackAmount
  (src, opGain,
   { s with
     nextId := s.nextId + 5
     conns := s.conns ++
       [(src.id, ConnTarget.toNode fbDelay.id),
        (fbDelay.id, ConnTarget.toNode fbGain.id),
        (fbGain.id, ConnTarget.toNode fbDelay.id),
        (src.id, ConnTarget.toNode envGain.id),
        (fbDelay.id, ConnTarget.toNode envGain.id),
        (envGain.id, ConnTarget.toNode opGain.id)]
     operators := s.operators ++ [src]
     gains := s.gains ++ [opGain]
     envelopes := s.envelopes ++ [envGain]
     feedbackNodes := s.feedbackNodes ++ [fbDelay]
     feedbackGains := s.feedbackGains ++ [fbGain] })

/-- `source.connect(target.frequency)`: succeeds only when the target node
actually has a `frequency` AudioParam (an oscillator).  On a noise buffer
source the property access yields `undefined` and `connect` throws; the
error carries the state at the point of the throw. -/
def connectToFrequency (srcId : ℕ) (target : ANode) (s : VoiceState) :
    Except (String × VoiceState) VoiceState :=
  if target.kind = NodeKind.oscillator then
    Except.ok { s with conns := s.conns ++ [(srcId, ConnTarget.toFreqParam target.id)] }
  else
    Except.error ("connect target has no frequency AudioParam", s)

/-- One modulation stage of the algorithm router: create a scaling gain
node holding `value`, route the modulator's output gain through it, and
sum it into the target operator's frequency parameter.  The scaling node
is never registered for teardown (`looseNodes`). -/
def FMSynth.modulationStage (gainSrc target : ANode) (value : ℚ) (s : VoiceState) :
    Except (String × VoiceState) VoiceState :=
  let modGain := mkGainNode s.nextId value
  let s :=
    { s with
      nextId := s.nextId + 1
      looseNodes := s.looseNodes ++ [modGain]
      conns := s.conns ++ [(gainSrc.id, ConnTarget.toNode modGain.id)] }
  connectToFrequency modGain.id target s

/-- `FMSynth.connectAlgorithm` (FMSynth.ts lines 268-331): the switch over
the algorithm tag.  The serial chain's stage `i` scaling value is
`operatorParams[i].level * (1000 - i * 200)`; carriers connect to the
master gain (node `1`).  The switch has no default case: a tag other than
the four listed ones falls through with no connections made. -/
def FMSynth.connectAlgorithm (algorithm : String) (operators gains : Fin 4 → ANode)
    (operatorParams : Fin 4 → OperatorParams) (s : VoiceState) :
    Except (String × VoiceState) VoiceState :=
  if algorithm = "serial" then
    match FMSynth.modulationStage (gains 0) (operators 1)
        ((operatorParams 0).level * (1000 - (0 : ℚ) * 200)) s with
    | Except.error e => Except.error e
    | Except.ok s =>
      match FMSynth.modulationStage (gains 1) (operators 2)
          ((operatorParams 1).level * (1000 - (1 : ℚ) * 200)) s with
      | Except.error e => Except.error e
      | Except.ok s =>
        match FMSynth.modulationStage (gains 2) (operators 3)
            ((operatorParams 2).level * (1000 - (2 : ℚ) * 200)) s with
        | Except.error e => Except.error e
        | Except.ok s =>
          Except.ok { s with conns := s.conns ++ [((gains 3).id, ConnTarget.toNode 1)] }
  else if algorithm = "parallel" then
      Except.ok
        { s with conns := s.conns ++
            [((gains 0).id, ConnTarget.toNode 1), ((gains 1).id, ConnTarget.toNode 1),
             ((gains 2).id, ConnTarget.toNode 1), ((gains 3).id, ConnTarget.toNode 1)] }
  else if algorithm = "hybrid1" then
    match FMSynth.modulationStage (gains 0) (operators 1)
        ((operatorParams 0).level * 1000) s with
    | Except.error e => Except.error e
    | Except.ok s =>
      match FMSynth.modulationStage (gains 2) (operators 3)
          ((operatorParams 2).level * 1000) s with
      | Except.error e => Except.error e
      | Except.ok s =>
        Except.ok
          { s with conns := s.conns ++
              [((gains 1).id, ConnTarget.toNode 1), ((gains 3).id, ConnTarget.toNode 1)] }
  else if algorithm = "hybrid2" then
    match FMSynth.modulationStage (gains 0) (operators 1)
        ((operatorParams 0).level * 1000) s with
    | Except.error e => Except.error e
    | Except.ok s =>
      match FMSynth.modulationStage (gains 1) (operators 2)
          ((operatorParams 1).level * 800) s with
      | Except.error e => Except.error e
      | Except.ok s =>
        Except.ok
          { s with conns := s.conns ++
              [((gains 2).id, ConnTarget.toNode 1), ((gains 3).id, ConnTarget.toNode 1)] }
  else Except.ok s

/-- `this.operators.forEach(osc => this.lfoGain.connect(osc.frequency))`:
wire the shared LFO gain into every registered operator's frequency
parameter, stopping at the first connect that throws. -/
def FMSynth.connectLfoToOperators (lfoGainId : ℕ) :
    List ANode → VoiceState → Except (String × VoiceState) VoiceState
  | [], s => Except.ok s
  | op :: rest, s =>
    match connectToFrequency lfoGainId op s with
    | Except.error e => Except.error e
    | Except.ok s => FMSynth.connectLfoToOperators lfoGainId rest s

/-- The graph-building part of `FMSynth.trigger` (everything from the
operator-construction loop on): builds the four operator units, routes
them per the algorithm, starts/stops all generators at
`now + duration + maxRelease`, instantiates and wires the LFO when
`depth > 0`, and arms the auto-stop timer.  An error (a thrown exception)
carries the partially built state. -/
def FMSynth.triggerCore (now baseFrequency duration : ℚ)
    (operatorParams : Fin 4 → OperatorParams) (lfoParams : LFOParams)
    (algorithm : Option String) (pitchEnvelope : Option PitchEnvelopeParams)
    (s : VoiceState) : Except (String × VoiceState) VoiceState :=
  let maxRel := maxRelease ((List.finRange 4).map operatorParams)
  let oscStopTime := now + duration + maxRel
  let r0 := FMSynth.addOperator now baseFrequency duration oscStopTime pitchEnvelope 0 (operatorParams 0) s
  let r1 := FMSynth.addOperator now baseFrequency duration oscStopTime pitchEnvelope 1 (operatorParams 1) r0.2.2
  let r2 := FMSynth.addOperator now baseFrequency duration oscStopTime pitchEnvelope 2 (operatorParams 2) r1.2.2
  let r3 := FMSynth.addOperator now baseFrequency duration oscStopTime pitchEnvelope 3 (operatorParams 3) r2.2.2
  let ops : Fin 4 → ANode := ![r0.1, r1.1, r2.1, r3.1]
  let gns : Fin 4 → ANode := ![r0.2.1, r1.2.1, r2.2.1, r3.2.1]
  match FMSynth.connectAlgorithm (algorithm.getD "serial") ops gns operatorParams r3.2.2 with
  | Except.error e => Except.error e
  | Except.ok s =>
    if 0 < lfoParams.depth then
      let lfoNode := mkOscillatorNode s.nextId lfoParams.frequency
      let lfoGainNode := mkGainNode (s.nextId + 1) (lfoParams.depth * baseFrequency)
      let s :=
        { s with
          nextId := s.nextId + 2
          lfo := some lfoNode, lfoGain := some lfoGainNode
          conns := s.conns ++ [(lfoNode.id, ConnTarget.toNode lfoGainNode.id)] }
      match FMSynth.connectLfoToOperators lfoGainNode.id s.operators s with
      | Except.error e => Except.error e
      | Except.ok s =>
        Except.ok
          { s with
            lfo := some { lfoNode with startTime := some now, stopTime := some oscStopTime }
            autoStopTimer := some ((duration + maxRel) * 1000 + 100) }
    else
      Except.ok { s with autoStopTimer := some ((duration + maxRel) * 1000 + 100) }

/-- `FMSynth.trigger` running at clock time `now`.  The `algorithm`
parameter is optional in TS with default `'serial'` (`none` models an
omitted/undefined argument).  Cancels the two cancelable timers, forcibly
tears the old graph down if the voice is playing (`cleanupImmediate`),
resets the note state, then builds and arms the new graph
(`triggerCore`). -/
def FMSynth.trigger (now baseFrequency duration : ℚ)
    (operatorParams : Fin 4 → OperatorParams) (lfoParams : LFOParams)
    (algorithm : Option String) (pitchEnvelope : Option PitchEnvelopeParams)
    (s : VoiceState) : Except (String × VoiceState) VoiceState :=
  let s := { s with cleanupTimer := none, autoStopTimer := none }
  let s := if s.isPlaying then FMSynth.cleanupImmediate now s else s
  let s :=
    { s with isPlaying := true, releaseScheduled := false,
             currentParams := (List.finRange 4).map operatorParams }
  FMSynth.triggerCore now baseFrequency duration operatorParams lfoParams algorithm pitchEnvelope s

/-- The sequencer's call site (Sequencer.tsx lines 359-367) passes a
seventh `velocity` argument, but `FMSynth.trigger` declares only six
parameters, so in JavaScript the extra argument is silently dropped. -/
def FMSynth.triggerWithVelocity (now baseFrequency duration : ℚ)
    (operatorParams : Fin 4 → OperatorParams) (lfoParams : LFOParams)
    (algorithm : Option String) (pitchEnvelope : Option PitchEnvelopeParams)
    (_velocity : ℚ) (s : VoiceState) : Except (String × VoiceState) VoiceState :=
  FMSynth.trigger now baseFrequency duration operatorParams lfoParams algorithm pitchEnvelope s

/-- `FMSynth.disconnect()`: run `cleanup` and disconnect the master gain. -/
def FMSynth.voiceDisconnect (now : ℚ) (s : VoiceState) : VoiceState :=
  let s := FMSynth.cleanup now s
  { s with conns := s.conns.filter (fun e => e.1 ≠ 1) }

/-- The state a call returns normally, or the state at the point of the
throw when it raised (JavaScript mutations persist past a throw). -/
def resultState (e : Except (String × VoiceState) VoiceState) : VoiceState :=
  match e with
  | Except.ok s => s
  | Except.error p => p.2

/-! ### Basic lemmas about the algorithm router -/

lemma modulationStage_eq (g t : ANode) (v : ℚ) (s : VoiceState)
    (h : t.kind = NodeKind.oscillator) :
    FMSynth.modulationStage g t v s = Except.ok
      { s with nextId := s.nextId + 1,
               looseNodes := s.looseNodes ++ [mkGainNode s.nextId v],
               conns := s.conns ++
                 [(g.id, ConnTarget.toNode s.nextId),
                  (s.nextId, ConnTarget.toFreqParam t.id)] } := by
  unfold FMSynth.modulationStage connectToFrequency
  rw [h]
  simp [mkGainNode]

lemma modulationStage_ok_inv {g t : ANode} {v : ℚ} {s r : VoiceState}
    (h : FMSynth.modulationStage g t v s = Except.ok r) :
    r = { s with
          nextId := s.nextId + 1,
          looseNodes := s.looseNodes ++ [mkGainNode s.nextId v],
          conns := s.conns ++
            [(g.id, ConnTarget.toNode s.nextId),
             (s.nextId, ConnTarget.toFreqParam t.id)] } := by
  unfold FMSynth.modulationStage connectToFrequency at h
  split at h
  · cases h
    simp [mkGainNode]
  · exact absurd h (by simp)

lemma connectAlgorithm_serial_eq (o g : Fin 4 → ANode) (p : Fin 4 → OperatorParams)
    (s : VoiceState)
    (h1 : (o 1).kind = NodeKind.oscillator) (h2 : (o 2).kind = NodeKind.oscillator)
    (h3 : (o 3).kind = NodeKind.oscillator) :
    FMSynth.connectAlgorithm "serial" o g p s = Except.ok
      { s with
        nextId := s.nextId + 3,
        looseNodes := s.looseNodes ++
          [mkGainNode s.nextId ((p 0).level * (1000 - (0:ℚ) * 200)),
           mkGainNode (s.nextId+1) ((p 1).level * (1000 - (1:ℚ) * 200)),
           mkGainNode (s.nextId+2) ((p 2).level * (1000 - (2:ℚ) * 200))],
        conns := s.conns ++
          [((g 0).id, ConnTarget.toNode s.nextId), (s.nextId, ConnTarget.toFreqParam (o 1).id),
           ((g 1).id, ConnTarget.toNode (s.nextId+1)), (s.nextId+1, ConnTarget.toFreqParam (o 2).id),
           ((g 2).id, ConnTarget.toNode (s.nextId+2)), (s.nextId+2, ConnTarget.toFreqParam (o 3).id),
           ((g 3).id, ConnTarget.toNode 1)] } := by
  unfold FMSynth.connectAlgorithm
  rw [if_pos rfl]
  rw [modulationStage_eq _ _ _ _ h1]
  dsimp only
  rw [modulationStage_eq _ _ _ _ h2]
  dsimp only
  rw [modulationStage_eq _ _ _ _ h3]
  dsimp only
  simp [List.append_assoc]

lemma connectAlgorithm_parallel_eq (o g : Fin 4 → ANode) (p : Fin 4 → OperatorParams)
    (s : VoiceState) :
    FMSynth.connectAlgorithm "parallel" o g p s = Except.ok
      { s with conns := s.conns ++
          [((g 0).id, ConnTarget.toNode 1), ((g 1).id, ConnTarget.toNode 1),
           ((g 2).id, ConnTarget.toNode 1), ((g 3).id, ConnTarget.toNode 1)] } := by
  unfold FMSynth.connectAlgorithm
  rw [if_neg (by decide), if_pos rfl]

lemma connectAlgorithm_hybrid1_eq (o g : Fin 4 → ANode) (p : Fin 4 → OperatorParams)
    (s : VoiceState)
    (h1 : (o 1).kind = NodeKind.oscillator) (h3 : (o 3).kind = NodeKind.oscillator) :
    FMSynth.connectAlgorithm "hybrid1" o g p s = Except.ok
      { s with
        nextId := s.nextId + 2,
        looseNodes := s.looseNodes ++
          [mkGainNode s.nextId ((p 0).level * 1000),
           mkGainNode (s.nextId+1) ((p 2).level * 1000)],
        conns := s.conns ++
          [((g 0).id, ConnTarget.toNode s.nextId), (s.nextId, ConnTarget.toFreqParam (o 1).id),
           ((g 2).id, ConnTarget.toNode (s.nextId+1)), (s.nextId+1, ConnTarget.toFreqParam (o 3).id),
           ((g 1).id, ConnTarget.toNode 1), ((g 3).id, ConnTarget.toNode 1)] } := by
  unfold FMSynth.connectAlgorithm
  rw [if_neg (by decide), if_neg (by decide), if_pos rfl]
  rw [modulationStage_eq _ _ _ _ h1]
  dsimp only
  rw [modulationStage_eq _ _ _ _ h3]
  dsimp only
  simp [List.append_assoc]

lemma connectAlgorithm_hybrid2_eq (o g : Fin 4 → ANode) (p : Fin 4 → OperatorParams)
    (s : VoiceState)
    (h1 : (o 1).kind = NodeKind.oscillator) (h2 : (o 2).kind = NodeKind.oscillator) :
    FMSynth.connectAlgorithm "hybrid2" o g p s = Except.ok
      { s with
        nextId := s.nextId + 2,
        looseNodes := s.looseNodes ++
          [mkGainNode s.nextId ((p 0).level * 1000),
           mkGainNode (s.nextId+1) ((p 1).level * 800)],
        conns := s.conns ++
          [((g 0).id, ConnTarget.toNode s.nextId), (s.nextId, ConnTarget.toFreqParam (o 1).id),
           ((g 1).id, ConnTarget.toNode (s.nextId+1)), (s.nextId+1, ConnTarget.toFreqParam (o 2).id),
           ((g 2).id, ConnTarget.toNode 1), ((g 3).id, ConnTarget.toNode 1)] } := by
  unfold FMSynth.connectAlgorithm
  rw [if_neg (by decide), if_neg (by decide), if_neg (by decide), if_pos rfl]
  rw [modulationStage_eq _ _ _ _ h1]
  dsimp only
  rw [modulationStage_eq _ _ _ _ h2]
  dsimp only
  simp [List.append_assoc]

lemma connectAlgorithm_unknown_eq (alg : String) (o g : Fin 4 → ANode)
    (p : Fin 4 → OperatorParams) (s : VoiceState)
    (hs : alg ≠ "serial") (hp : alg ≠ "parallel")
    (hh1 : alg ≠ "hybrid1") (hh2 : alg ≠ "hybrid2") :
    FMSynth.connectAlgorithm alg o g p s = Except.ok s := by
  unfold FMSynth.connectAlgorithm
  rw [if_neg hs, if_neg hp, if_neg hh1, if_neg hh2]

/-- Everything the algorithm router and the LFO wiring leave untouched:
all `VoiceState` fields except `nextId`, `conns` and `looseNodes`. -/
def FieldsEq (s r : VoiceState) : Prop :=
  r.operators = s.operators ∧ r.gains = s.gains ∧ r.envelopes = s.envelopes ∧
  r.feedbackNodes = s.feedbackNodes ∧ r.feedbackGains = s.feedbackGains ∧
  r.lfo = s.lfo ∧ r.lfoGain = s.lfoGain ∧ r.isPlaying = s.isPlaying ∧
  r.releaseScheduled = s.releaseScheduled ∧ r.currentParams = s.currentParams ∧
  r.cleanupTimer = s.cleanupTimer ∧ r.autoStopTimer = s.autoStopTimer ∧
  r.pendingTimeouts = s.pendingTimeouts ∧ r.masterGain = s.masterGain ∧
  r.compressor = s.compressor ∧ r.limiter = s.limiter

lemma fieldsEq_refl (s : VoiceState) : FieldsEq s s := by
  simp [FieldsEq]

lemma connectToFrequency_ok_inv {srcId : ℕ} {t : ANode} {s r : VoiceState}
    (h : connectToFrequency srcId t s = Except.ok r) :
    r = { s with conns := s.conns ++ [(srcId, ConnTarget.toFreqParam t.id)] } := by
  unfold connectToFrequency at h
  split at h
  · cases h
    rfl
  · exact absurd h (by simp)

lemma connectToFrequency_noise {srcId : ℕ} {t : ANode} (s : VoiceState)
    (h : t.kind = NodeKind.noiseSource) :
    connectToFrequency srcId t s =
      Except.error ("connect target has no frequency AudioParam", s) := by
  unfold connectToFrequency
  rw [h]
  simp

lemma connectAlgorithm_ok_inv {alg : String} {o g : Fin 4 → ANode}
    {p : Fin 4 → OperatorParams} {s r : VoiceState}
    (h : FMSynth.connectAlgorithm alg o g p s = Except.ok r) :
    FieldsEq s r ∧ s.nextId ≤ r.nextId ∧
    ∀ e ∈ r.conns, e ∈ s.conns ∨ (∃ i : Fin 4, e.1 = (g i).id) ∨ s.nextId ≤ e.1 := by
  unfold FMSynth.connectAlgorithm at h
  split_ifs at h
  · -- serial
    split at h
    · simp at h
    · rename_i s1 h1
      split at h
      · simp at h
      · rename_i s2 h2
        split at h
        · simp at h
        · rename_i s3 h3
          cases h
          have e1 := modulationStage_ok_inv h1; subst e1
          have e2 := modulationStage_ok_inv h2; subst e2
          have e3 := modulationStage_ok_inv h3; subst e3
          refine ⟨by simp [FieldsEq], by dsimp only; omega, ?_⟩
          intro e he
          simp only [List.append_assoc, List.mem_append, List.mem_cons,
            List.not_mem_nil, or_false] at he
          rcases he with he | (he | he) | (he | he) | (he | he) | he
          · exact Or.inl he
          · subst he; exact Or.inr (Or.inl ⟨0, rfl⟩)
          · subst he; exact Or.inr (Or.inr (by dsimp only; omega))
          · subst he; exact Or.inr (Or.inl ⟨1, rfl⟩)
          · subst he; exact Or.inr (Or.inr (by dsimp only; omega))
          · subst he; exact Or.inr (Or.inl ⟨2, rfl⟩)
          · subst he; exact Or.inr (Or.inr (by dsimp only; omega))
          · subst he; exact Or.inr (Or.inl ⟨3, rfl⟩)
  · -- parallel
    cases h
    refine ⟨by simp [FieldsEq], by simp, ?_⟩
    intro e he
    simp only [List.mem_append, List.mem_cons, List.not_mem_nil, or_false] at he
    rcases he with he | he | he | he | he
    · exact Or.inl he
    · subst he; exact Or.inr (Or.inl ⟨0, rfl⟩)
    · subst he; exact Or.inr (Or.inl ⟨1, rfl⟩)
    · subst he; exact Or.inr (Or.inl ⟨2, rfl⟩)
    · subst he; exact Or.inr (Or.inl ⟨3, rfl⟩)
  · -- hybrid1
    split at h
    · simp at h
    · rename_i s1 h1
      split at h
      · simp at h
      · rename_i s2 h2
        cases h
        have e1 := modulationStage_ok_inv h1; subst e1
        have e2 := modulationStage_ok_inv h2; subst e2
        refine ⟨by simp [FieldsEq], by dsimp only; omega, ?_⟩
        intro e he
        simp only [List.append_assoc, List.mem_append, List.mem_cons,
          List.not_mem_nil, or_false] at he
        rcases he with he | (he | he) | (he | he) | (he | he)
        · exact Or.inl he
        · subst he; exact Or.inr (Or.inl ⟨0, rfl⟩)
        · subst he; exact Or.inr (Or.inr (by dsimp only; omega))
        · subst he; exact Or.inr (Or.inl ⟨2, rfl⟩)
        · subst he; exact Or.inr (Or.inr (by dsimp only; omega))
        · subst he; exact Or.inr (Or.inl ⟨1, rfl⟩)
        · subst he; exact Or.inr (Or.inl ⟨3, rfl⟩)
  · -- hybrid2
    split at h
    · simp at h
    · rename_i s1 h1
      split at h
      · simp at h
      · rename_i s2 h2
        cases h
        have e1 := modulationStage_ok_inv h1; subst e1
        have e2 := modulationStage_ok_inv h2; subst e2
        refine ⟨by simp [FieldsEq], by dsimp only; omega, ?_⟩
        intro e he
        simp only [List.append_assoc, List.mem_append, List.mem_cons,
          List.not_mem_nil, or_false] at he
        rcases he with he | (he | he) | (he | he) | (he | he)
        · exact Or.inl he
        · subst he; exact Or.inr (Or.inl ⟨0, rfl⟩)
        · subst he; exact Or.inr (Or.inr (by dsimp only; omega))
        · subst he; exact Or.inr (Or.inl ⟨1, rfl⟩)
        · subst he; exact Or.inr (Or.inr (by dsimp only; omega))
        · subst he; exact Or.inr (Or.inl ⟨2, rfl⟩)
        · subst he; exact Or.inr (Or.inl ⟨3, rfl⟩)
  · -- unrecognized tag: identity
    cases h
    exact ⟨fieldsEq_refl s, le_refl _, fun e he => Or.inl he⟩

lemma connectLfoToOperators_ok_inv {lid : ℕ} :
    ∀ (l : List ANode) {s r : VoiceState},
      FMSynth.connectLfoToOperators lid l s = Except.ok r →
      FieldsEq s r ∧ r.nextId = s.nextId ∧ r.looseNodes = s.looseNodes ∧
      ∀ e ∈ r.conns, e ∈ s.conns ∨ e.1 = lid := by
  intro l
  induction l with
  | nil =>
    intro s r h
    unfold FMSynth.connectLfoToOperators at h
    cases h
    exact ⟨fieldsEq_refl s, rfl, rfl, fun e he => Or.inl he⟩
  | cons op rest ih =>
    intro s r h
    unfold FMSynth.connectLfoToOperators at h
    revert h
    cases hc : connectToFrequency lid op s with
    | error e => intro h; exact absurd h (by simp)
    | ok s1 =>
      intro h
      obtain ⟨hf, hn, hl, hm⟩ := ih h
      rw [connectToFrequency_ok_inv hc] at hf hn hl hm
      refine ⟨?_, by simpa using hn, by simpa using hl, ?_⟩
      · simp only [FieldsEq] at hf ⊢
        simpa using hf
      · intro e he
        rcases hm e he with h' | h'
        · simp only [List.mem_append, List.mem_singleton] at h'
          rcases h' with h' | h'
          · exact Or.inl h'
          · subst h'
            exact Or.inr rfl
        · exact Or.inr h'

/-- What a successful `triggerCore` run adds and arms: the four operator
units (sources, envelope gains, output gains, feedback nodes) appended to
the registries with identities `t.nextId`, `t.nextId+5`, ..., the note
state untouched by the routing, the auto-stop timer armed for
`(duration + maxRelease)*1000 + 100` ms, a started/stop-scheduled LFO
exactly when `depth > 0`, and every new connection sourced at a node
created by this call. -/
lemma triggerCore_ok_inv (now bf dur : ℚ) (ps : Fin 4 → OperatorParams)
    (lfo : LFOParams) (alg : Option String) (pe : Option PitchEnvelopeParams)
    {t s' : VoiceState}
    (hok : FMSynth.triggerCore now bf dur ps lfo alg pe t = Except.ok s') :
    s'.operators = t.operators ++
      [mkOperatorSource now bf (now + dur + maxRelease ((List.finRange 4).map ps)) pe 0 (ps 0) t.nextId,
       mkOperatorSource now bf (now + dur + maxRelease ((List.finRange 4).map ps)) pe 1 (ps 1) (t.nextId + 5),
       mkOperatorSource now bf (now + dur + maxRelease ((List.finRange 4).map ps)) pe 2 (ps 2) (t.nextId + 10),
       mkOperatorSource now bf (now + dur + maxRelease ((List.finRange 4).map ps)) pe 3 (ps 3) (t.nextId + 15)] ∧
    s'.envelopes = t.envelopes ++
      [{ mkGainNode (t.nextId + 1) 0 with gain := envelopeSchedule now dur (ps 0) (AudioParam.default 0) },
       { mkGainNode (t.nextId + 6) 0 with gain := envelopeSchedule now dur (ps 1) (AudioParam.default 0) },
       { mkGainNode (t.nextId + 11) 0 with gain := envelopeSchedule now dur (ps 2) (AudioParam.default 0) },
       { mkGainNode (t.nextId + 16) 0 with gain := envelopeSchedule now dur (ps 3) (AudioParam.default 0) }] ∧
    s'.gains = t.gains ++
      [mkGainNode (t.nextId + 2) (ps 0).level, mkGainNode (t.nextId + 7) (ps 1).level,
       mkGainNode (t.nextId + 12) (ps 2).level, mkGainNode (t.nextId + 17) (ps 3).level] ∧
    s'.feedbackNodes = t.feedbackNodes ++
      [mkDelayNode (t.nextId + 3) (1 / 1000), mkDelayNode (t.nextId + 8) (1 / 1000),
       mkDelayNode (t.nextId + 13) (1 / 1000), mkDelayNode (t.nextId + 18) (1 / 1000)] ∧
    s'.feedbackGains = t.feedbackGains ++
      [mkGainNode (t.nextId + 4) (ps 0).feedbackAmount, mkGainNode (t.nextId + 9) (ps 1).feedbackAmount,
       mkGainNode (t.nextId + 14) (ps 2).feedbackAmount, mkGainNode (t.nextId + 19) (ps 3).feedbackAmount] ∧
    s'.isPlaying = t.isPlaying ∧
    s'.releaseScheduled = t.releaseScheduled ∧
    s'.currentParams = t.currentParams ∧
    s'.cleanupTimer = t.cleanupTimer ∧
    s'.pendingTimeouts = t.pendingTimeouts ∧
    s'.autoStopTimer = some ((dur + maxRelease ((List.finRange 4).map ps)) * 1000 + 100) ∧
    (0 < lfo.depth →
      ∃ l, s'.lfo = some l ∧ l.startTime = some now ∧
        l.stopTime = some (now + dur + maxRelease ((List.finRange 4).map ps))) ∧
    (∀ e ∈ s'.conns, e ∈ t.conns ∨ t.nextId ≤ e.1) := by
  unfold FMSynth.triggerCore at hok
  dsimp only [FMSynth.addOperator, mkOperatorSource, mkGainNode, mkDelayNode,
    mkOscillatorNode] at hok
  split at hok
  · simp at hok
  · rename_i s1 h1
    obtain ⟨⟨f1o, f1g, f1e, f1fn, f1fg, f1l, f1lg, f1p, f1r, f1cp, f1ct, f1at, f1pt,
      f1mg, f1cm, f1li⟩, hn1, hc1⟩ := connectAlgorithm_ok_inv h1
    dsimp only at f1o f1g f1e f1fn f1fg f1l f1lg f1p f1r f1cp f1ct f1at f1pt hn1 hc1
    have hs1c : ∀ e ∈ s1.conns, e ∈ t.conns ∨ t.nextId ≤ e.1 := by
      intro e he
      rcases hc1 e he with h3 | h3 | h3
      · simp only [List.append_assoc, List.mem_append, List.mem_cons,
          List.not_mem_nil, or_false] at h3
        rcases h3 with h3 | h3
        · exact Or.inl h3
        · right
          rcases h3 with (rfl|rfl|rfl|rfl|rfl|rfl) | (rfl|rfl|rfl|rfl|rfl|rfl) |
            (rfl|rfl|rfl|rfl|rfl|rfl) | rfl|rfl|rfl|rfl|rfl|rfl <;> (dsimp only; omega)
      · obtain ⟨i, hi⟩ := h3
        right
        fin_cases i <;> simp at hi <;> omega
      · right
        omega
    split at hok
    · rename_i hd
      split at hok
      · simp at hok
      · rename_i s2 h2
        obtain ⟨⟨f2o, f2g, f2e, f2fn, f2fg, f2l, f2lg, f2p, f2r, f2cp, f2ct, f2at, f2pt,
          f2mg, f2cm, f2li⟩, hn2, hl2, hc2⟩ := connectLfoToOperators_ok_inv _ h2
        dsimp only at f2o f2g f2e f2fn f2fg f2l f2lg f2p f2r f2cp f2ct f2at f2pt hn2 hl2 hc2
        cases hok
        dsimp only
        refine ⟨?_, ?_, ?_, ?_, ?_, ?_, ?_, ?_, ?_, ?_, rfl, ?_, ?_⟩
        · rw [f2o, f1o]
          simp [mkOperatorSource, mkGainNode, mkDelayNode, mkOscillatorNode]
        · rw [f2e, f1e]
          simp [mkOperatorSource, mkGainNode, mkDelayNode, mkOscillatorNode]
        · rw [f2g, f1g]
          simp [mkOperatorSource, mkGainNode, mkDelayNode, mkOscillatorNode]
        · rw [f2fn, f1fn]
          simp [mkOperatorSource, mkGainNode, mkDelayNode, mkOscillatorNode]
        · rw [f2fg, f1fg]
          simp [mkOperatorSource, mkGainNode, mkDelayNode, mkOscillatorNode]
        · rw [f2p, f1p]
        · rw [f2r, f1r]
        · rw [f2cp, f1cp]
        · rw [f2ct, f1ct]
        · rw [f2pt, f1pt]
        · intro _
          exact ⟨_, rfl, rfl, rfl⟩
        · intro e he
          rcases hc2 e he with h' | h'
          · rcases List.mem_append.mp h' with h'' | h''
            · exact hs1c e h''
            · simp only [List.mem_singleton] at h''
              subst h''
              right
              dsimp only
              omega
          · right
            omega
    · rename_i hd
      cases hok
      dsimp only
      refine ⟨?_, ?_, ?_, ?_, ?_, ?_, ?_, ?_, ?_, ?_, rfl, ?_, ?_⟩
      · rw [f1o]
        simp [mkOperatorSource, mkGainNode, mkDelayNode, mkOscillatorNode]
      · rw [f1e]
        simp [mkOperatorSource, mkGainNode, mkDelayNode, mkOscillatorNode]
      · rw [f1g]
        simp [mkOperatorSource, mkGainNode, mkDelayNode, mkOscillatorNode]
      · rw [f1fn]
        simp [mkOperatorSource, mkGainNode, mkDelayNode, mkOscillatorNode]
      · rw [f1fg]
        simp [mkOperatorSource, mkGainNode, mkDelayNode, mkOscillatorNode]
      · rw [f1p]
      · rw [f1r]
      · rw [f1cp]
      · rw [f1ct]
      · rw [f1pt]
      · intro hdp
        exact absurd hdp hd
      · intro e he
        exact hs1c e he

/-- What a successful `trigger` run guarantees when the voice is either
playing (so `cleanupImmediate` empties the registries first) or starts
with empty registries: afterwards the registries hold exactly the four
new operator units, the note state is armed, and every connection is
either a surviving pre-call connection (with the prior graph's edges
removed when the voice was playing) or sourced at a node of the new
graph. -/
lemma trigger_ok_inv (now bf dur : ℚ) (ps : Fin 4 → OperatorParams)
    (lfo : LFOParams) (alg : Option String) (pe : Option PitchEnvelopeParams)
    {s s' : VoiceState}
    (hreg : s.isPlaying = true ∨
      (s.operators = [] ∧ s.gains = [] ∧ s.envelopes = [] ∧
       s.feedbackNodes = [] ∧ s.feedbackGains = []))
    (hok : FMSynth.trigger now bf dur ps lfo alg pe s = Except.ok s') :
    s'.operators =
      [mkOperatorSource now bf (now + dur + maxRelease ((List.finRange 4).map ps)) pe 0 (ps 0) s.nextId,
       mkOperatorSource now bf (now + dur + maxRelease ((List.finRange 4).map ps)) pe 1 (ps 1) (s.nextId + 5),
       mkOperatorSource now bf (now + dur + maxRelease ((List.finRange 4).map ps)) pe 2 (ps 2) (s.nextId + 10),
       mkOperatorSource now bf (now + dur + maxRelease ((List.finRange 4).map ps)) pe 3 (ps 3) (s.nextId + 15)] ∧
    s'.envelopes =
      [{ mkGainNode (s.nextId + 1) 0 with gain := envelopeSchedule now dur (ps 0) (AudioParam.default 0) },
       { mkGainNode (s.nextId + 6) 0 with gain := envelopeSchedule now dur (ps 1) (AudioParam.default 0) },
       { mkGainNode (s.nextId + 11) 0 with gain := envelopeSchedule now dur (ps 2) (AudioParam.default 0) },
       { mkGainNode (s.nextId + 16) 0 with gain := envelopeSchedule now dur (ps 3) (AudioParam.default 0) }] ∧
    s'.gains =
      [mkGainNode (s.nextId + 2) (ps 0).level, mkGainNode (s.nextId + 7) (ps 1).level,
       mkGainNode (s.nextId + 12) (ps 2).level, mkGainNode (s.nextId + 17) (ps 3).level] ∧
    s'.feedbackNodes =
      [mkDelayNode (s.nextId + 3) (1 / 1000), mkDelayNode (s.nextId + 8) (1 / 1000),
       mkDelayNode (s.nextId + 13) (1 / 1000), mkDelayNode (s.nextId + 18) (1 / 1000)] ∧
    s'.feedbackGains =
      [mkGainNode (s.nextId + 4) (ps 0).feedbackAmount, mkGainNode (s.nextId + 9) (ps 1).feedbackAmount,
       mkGainNode (s.nextId + 14) (ps 2).feedbackAmount, mkGainNode (s.nextId + 19) (ps 3).feedbackAmount] ∧
    s'.isPlaying = true ∧
    s'.releaseScheduled = false ∧
    s'.currentParams = (List.finRange 4).map ps ∧
    s'.cleanupTimer = none ∧
    s'.autoStopTimer = some ((dur + maxRelease ((List.finRange 4).map ps)) * 1000 + 100) ∧
    (0 < lfo.depth →
      ∃ l, s'.lfo = some l ∧ l.startTime = some now ∧
        l.stopTime = some (now + dur + maxRelease ((List.finRange 4).map ps))) ∧
    (∀ e ∈ s'.conns,
      e ∈ (if s.isPlaying then removeConnsFrom (registeredIds s) s.conns else s.conns) ∨
        s.nextId ≤ e.1) := by
  unfold FMSynth.trigger at hok
  cases hb : s.isPlaying with
  | true =>
    dsimp only at hok
    rw [hb] at hok
    rw [if_pos rfl] at hok
    dsimp only [FMSynth.cleanupImmediate] at hok
    obtain ⟨c1, c2, c3, c4, c5, c6, c7, c8, c9, c10, c11, c12, c13⟩ :=
      triggerCore_ok_inv now bf dur ps lfo alg pe hok
    dsimp only at c1 c2 c3 c4 c5 c6 c7 c8 c9 c10 c11 c12 c13
    refine ⟨by simpa using c1, by simpa using c2, by simpa using c3, by simpa using c4,
      by simpa using c5, c6, c7, c8, c9, c11, c12, ?_⟩
    intro e he
    rw [if_pos rfl]
    have hm := c13 e he
    dsimp only [registeredIds] at hm ⊢
    exact hm
  | false =>
    rcases hreg with hpl | hemp
    · rw [hb] at hpl
      exact absurd hpl (by simp)
    · obtain ⟨e1, e2, e3, e4, e5⟩ := hemp
      dsimp only at hok
      rw [hb] at hok
      rw [if_neg (by simp)] at hok
      obtain ⟨c1, c2, c3, c4, c5, c6, c7, c8, c9, c10, c11, c12, c13⟩ :=
        triggerCore_ok_inv now bf dur ps lfo alg pe hok
      dsimp only at c1 c2 c3 c4 c5 c6 c7 c8 c9 c10 c11 c12 c13
      refine ⟨?_, ?_, ?_, ?_, ?_, c6, c7, c8, c9, c11, c12, ?_⟩
      · rw [c1, e1]; simp
      · rw [c2, e3]; simp
      · rw [c3, e2]; simp
      · rw [c4, e4]; simp
      · rw [c5, e5]; simp
      · intro e he
        rw [if_neg (by simp)]
        exact c13 e he

/-! ### Fixtures for witnesses and counterexamples -/

/-- A concrete operator parameter set used by witnesses. -/
def exampleOp : OperatorParams :=
  { frequency := 0, ratio := 1, level := 4 / 5, attack := 1 / 100, decay := 1 / 10,
    sustain := 3 / 10, release := 1 / 5, feedbackAmount := 0, useNoise := false }

/-- Four identical example operators. -/
def exampleOps : Fin 4 → OperatorParams := fun _ => exampleOp

/-- An LFO parameter set with zero depth (LFO not instantiated). -/
def silentLfo : LFOParams := { frequency := 0, depth := 0 }

/-- Concrete oscillator-backed operator sources for router-level witnesses. -/
def exampleRouterOps : Fin 4 → ANode := fun i => mkOscillatorNode (10 + i.val) 440

/-- Concrete operator output gains for router-level witnesses. -/
def exampleRouterGains : Fin 4 → ANode := fun i => mkGainNode (20 + i.val) 1

/-! ### C7 -/

/-- C7: the sequencer supplies a velocity argument, but `FMSynth.trigger`
has no velocity parameter, so the argument is dropped: triggering with
velocity `1/2` produces exactly the state produced with velocity `1`, and
every operator output gain equals its `level` (`4/5`) unscaled. -/
theorem c7_velocity_ignored_bug :
    FMSynth.triggerWithVelocity 0 440 (1/2) exampleOps silentLfo (some "parallel") none (1/2)
        FMSynth.init =
      FMSynth.triggerWithVelocity 0 440 (1/2) exampleOps silentLfo (some "parallel") none 1
        FMSynth.init ∧
    (resultState (FMSynth.triggerWithVelocity 0 440 (1/2) exampleOps silentLfo (some "parallel")
        none (1/2) FMSynth.init)).gains.map (fun n => n.gain.value) =
      [4/5, 4/5, 4/5, 4/5] := by
  exact ⟨rfl, rfl⟩

/-! ### C2 -/

/-- C2 counterexample: an unrecognized algorithm tag (`"legacy"`) does not
fall back to the serial wiring — the router returns with no connections
made at all (the state is unchanged), while the serial tag does wire the
graph. -/
theorem c2_counterexample_no_serial_fallback :
    FMSynth.connectAlgorithm "legacy" exampleRouterOps exampleRouterGains exampleOps
        FMSynth.init = Except.ok FMSynth.init ∧
    FMSynth.init.conns.length = 3 ∧
    (resultState (FMSynth.connectAlgorithm "serial" exampleRouterOps exampleRouterGains exampleOps
        FMSynth.init)).conns.length = 10 := by
  exact ⟨rfl, rfl, rfl⟩

/-- C2 (amended): a trigger whose algorithm tag is not one of the four
recognized values is never fatal — no error is thrown — but the router
performs no wiring at all (it returns the state unchanged, leaving the
note silent) rather than falling back to the serial topology; only an
omitted/undefined algorithm argument defaults to `'serial'`. -/
theorem c2_unknown_tag_no_wiring (alg : String) (o g : Fin 4 → ANode)
    (p : Fin 4 → OperatorParams) (s : VoiceState)
    (hs : alg ≠ "serial") (hp : alg ≠ "parallel")
    (hh1 : alg ≠ "hybrid1") (hh2 : alg ≠ "hybrid2") :
    FMSynth.connectAlgorithm alg o g p s = Except.ok s := by
  exact connectAlgorithm_unknown_eq alg o g p s hs hp hh1 hh2

/-- Witness for C2's amended theorem at the concrete tag `"legacy"`. -/
theorem c2_unknown_tag_no_wiring_witness :
    FMSynth.connectAlgorithm "legacy" exampleRouterOps exampleRouterGains exampleOps
      FMSynth.init = Except.ok FMSynth.init := by
  exact c2_unknown_tag_no_wiring "legacy" exampleRouterOps exampleRouterGains exampleOps
    FMSynth.init (by decide) (by decide) (by decide) (by decide)

/-! ### C9 -/

/-- C9: `connectSidechainGain g` replaces exactly the `limiter ->
destination` connection with `limiter -> g -> destination` and changes
nothing else; `connectAnalyzer a` only appends a tap of the shaped signal
(the compressor's output) to `a`; neither call touches the note graph,
the registries, the flags, or the timers, so playback is uninterrupted. -/
theorem c9_output_taps_frame (s : VoiceState) (a g : ℕ) :
    (FMSynth.connectAnalyzer a s).conns = s.conns ++ [(2, ConnTarget.toNode a)] ∧
    (FMSynth.connectAnalyzer a s) = { s with conns := (FMSynth.connectAnalyzer a s).conns } ∧
    (∀ e, e ∈ (FMSynth.connectSidechainGain g s).conns ↔
      ((e ∈ s.conns ∧ e ≠ (3, ConnTarget.toNode 0)) ∨
        e = (3, ConnTarget.toNode g) ∨ e = (g, ConnTarget.toNode 0))) ∧
    ((1, ConnTarget.toNode 2) ∈ s.conns →
      (1, ConnTarget.toNode 2) ∈ (FMSynth.connectSidechainGain g s).conns) ∧
    ((2, ConnTarget.toNode 3) ∈ s.conns →
      (2, ConnTarget.toNode 3) ∈ (FMSynth.connectSidechainGain g s).conns) ∧
    (FMSynth.connectSidechainGain g s) =
      { s with conns := (FMSynth.connectSidechainGain g s).conns } := by
  refine ⟨rfl, rfl, ?_, ?_, ?_, rfl⟩
  · intro e
    simp only [FMSynth.connectSidechainGain, List.mem_append, List.mem_filter,
      List.mem_cons, List.not_mem_nil, or_false, decide_eq_true_eq]
  · intro h
    simp only [FMSynth.connectSidechainGain, List.mem_append, List.mem_filter,
      decide_eq_true_eq]
    exact Or.inl ⟨h, by decide⟩
  · intro h
    simp only [FMSynth.connectSidechainGain, List.mem_append, List.mem_filter,
      decide_eq_true_eq]
    exact Or.inl ⟨h, by decide⟩

/-- Witness for C9 at the freshly constructed voice with external nodes
`100` (analyser) and `101` (sidechain gain). -/
theorem c9_output_taps_frame_witness :
    (FMSynth.connectAnalyzer 100 FMSynth.init).conns =
      FMSynth.init.conns ++ [(2, ConnTarget.toNode 100)] ∧
    ((1, ConnTarget.toNode 2) ∈ (FMSynth.connectSidechainGain 101 FMSynth.init).conns) := by
  refine ⟨(c9_output_taps_frame FMSynth.init 100 101).1, ?_⟩
  exact (c9_output_taps_frame FMSynth.init 100 101).2.2.2.1 (by decide)

/-! ### C5 -/

/-- C5: under the serial algorithm, operator 0's level output is routed
through a scaling stage holding `level * 1000` into operator 1's frequency
parameter; the successive serial stages use the descending constants
1000, 800, 600 (stage `i` holds `level_i * (1000 - 200*i)`); and operator
3 alone connects to the master output (node 1). -/
theorem c5_serial_modulation_scaling (o g : Fin 4 → ANode) (p : Fin 4 → OperatorParams)
    (s : VoiceState)
    (h1 : (o 1).kind = NodeKind.oscillator) (h2 : (o 2).kind = NodeKind.oscillator)
    (h3 : (o 3).kind = NodeKind.oscillator)
    (hg : ∀ i j : Fin 4, (g i).id = (g j).id → i = j)
    (hn : 1 < s.nextId)
    (hpre : ∀ (i : Fin 4) (tgt : ConnTarget), ((g i).id, tgt) ∉ s.conns) :
    ∃ r, FMSynth.connectAlgorithm "serial" o g p s = Except.ok r ∧
      r.looseNodes = s.looseNodes ++
        [mkGainNode s.nextId ((p 0).level * 1000),
         mkGainNode (s.nextId + 1) ((p 1).level * 800),
         mkGainNode (s.nextId + 2) ((p 2).level * 600)] ∧
      ((g 0).id, ConnTarget.toNode s.nextId) ∈ r.conns ∧
      (s.nextId, ConnTarget.toFreqParam (o 1).id) ∈ r.conns ∧
      ((g 1).id, ConnTarget.toNode (s.nextId + 1)) ∈ r.conns ∧
      (s.nextId + 1, ConnTarget.toFreqParam (o 2).id) ∈ r.conns ∧
      ((g 2).id, ConnTarget.toNode (s.nextId + 2)) ∈ r.conns ∧
      (s.nextId + 2, ConnTarget.toFreqParam (o 3).id) ∈ r.conns ∧
      (∀ i : Fin 4, ((g i).id, ConnTarget.toNode 1) ∈ r.conns ↔ i = 3) := by
  refine ⟨_, connectAlgorithm_serial_eq o g p s h1 h2 h3, ?_, ?_, ?_, ?_, ?_, ?_, ?_, ?_⟩
  · dsimp only
    norm_num [mkGainNode]
  · simp
  · simp
  · simp
  · simp
  · simp
  · simp
  · intro i
    dsimp only
    simp only [List.mem_append, List.mem_cons, List.not_mem_nil, or_false,
      Prod.mk.injEq, ConnTarget.toNode.injEq, reduceCtorEq, and_false, false_or,
      and_true]
    constructor
    · rintro (hin | ⟨hgi, hX⟩ | ⟨hgi, hX⟩ | ⟨hgi, hX⟩ | hlast)
      · exact absurd hin (hpre i _)
      · omega
      · omega
      · omega
      · exact hg i 3 hlast
    · rintro rfl
      right; right; right; right
      rfl

/-- Witness for C5 on concrete operator and gain nodes from a fresh voice. -/
theorem c5_serial_modulation_scaling_witness :
    ∃ r, FMSynth.connectAlgorithm "serial" exampleRouterOps exampleRouterGains exampleOps
        FMSynth.init = Except.ok r ∧
      r.looseNodes = FMSynth.init.looseNodes ++
        [mkGainNode FMSynth.init.nextId ((exampleOps 0).level * 1000),
         mkGainNode (FMSynth.init.nextId + 1) ((exampleOps 1).level * 800),
         mkGainNode (FMSynth.init.nextId + 2) ((exampleOps 2).level * 600)] ∧
      ((exampleRouterGains 0).id, ConnTarget.toNode FMSynth.init.nextId) ∈ r.conns ∧
      (FMSynth.init.nextId, ConnTarget.toFreqParam (exampleRouterOps 1).id) ∈ r.conns ∧
      ((exampleRouterGains 1).id, ConnTarget.toNode (FMSynth.init.nextId + 1)) ∈ r.conns ∧
      (FMSynth.init.nextId + 1, ConnTarget.toFreqParam (exampleRouterOps 2).id) ∈ r.conns ∧
      ((exampleRouterGains 2).id, ConnTarget.toNode (FMSynth.init.nextId + 2)) ∈ r.conns ∧
      (FMSynth.init.nextId + 2, ConnTarget.toFreqParam (exampleRouterOps 3).id) ∈ r.conns ∧
      (∀ i : Fin 4, ((exampleRouterGains i).id, ConnTarget.toNode 1) ∈ r.conns ↔ i = 3) := by
  exact c5_serial_modulation_scaling exampleRouterOps exampleRouterGains exampleOps FMSynth.init
    rfl rfl rfl (by decide) (by decide)
    (by intro i tgt hmem; fin_cases i <;> simp [FMSynth.init, exampleRouterGains, mkGainNode] at hmem)

/-! ### C6 -/

/-- C6: for each of the four defined algorithm tags the router wires every
operator either as a modulator (output gain routed through a scaling stage
into another operator's frequency parameter) or as a carrier (output gain
connected to the master output, node 1), with the carrier sets
serial → {3}, parallel → {0,1,2,3}, hybrid1 → {1,3} (mod 0→1, 2→3),
hybrid2 → {2,3} (mod 0→1, 1→2); no operator is left unconnected. -/
theorem c6_algorithm_topologies (o g : Fin 4 → ANode) (p : Fin 4 → OperatorParams)
    (s : VoiceState)
    (h1 : (o 1).kind = NodeKind.oscillator) (h2 : (o 2).kind = NodeKind.oscillator)
    (h3 : (o 3).kind = NodeKind.oscillator)
    (hg : ∀ i j : Fin 4, (g i).id = (g j).id → i = j)
    (hn : 1 < s.nextId)
    (hpre : ∀ (i : Fin 4) (tgt : ConnTarget), ((g i).id, tgt) ∉ s.conns) :
    (∃ r, FMSynth.connectAlgorithm "serial" o g p s = Except.ok r ∧
      (∀ i : Fin 4, ((g i).id, ConnTarget.toNode 1) ∈ r.conns ↔ i = 3) ∧
      (∃ m, ((g 0).id, ConnTarget.toNode m) ∈ r.conns ∧
        (m, ConnTarget.toFreqParam (o 1).id) ∈ r.conns) ∧
      (∃ m, ((g 1).id, ConnTarget.toNode m) ∈ r.conns ∧
        (m, ConnTarget.toFreqParam (o 2).id) ∈ r.conns) ∧
      (∃ m, ((g 2).id, ConnTarget.toNode m) ∈ r.conns ∧
        (m, ConnTarget.toFreqParam (o 3).id) ∈ r.conns) ∧
      (∀ i : Fin 4, ((g i).id, ConnTarget.toNode 1) ∈ r.conns ∨
        ∃ m j, ((g i).id, ConnTarget.toNode m) ∈ r.conns ∧
          (m, ConnTarget.toFreqParam (o j).id) ∈ r.conns)) ∧
    (∃ r, FMSynth.connectAlgorithm "parallel" o g p s = Except.ok r ∧
      (∀ i : Fin 4, ((g i).id, ConnTarget.toNode 1) ∈ r.conns) ∧
      (∀ i : Fin 4, ((g i).id, ConnTarget.toNode 1) ∈ r.conns ∨
        ∃ m j, ((g i).id, ConnTarget.toNode m) ∈ r.conns ∧
          (m, ConnTarget.toFreqParam (o j).id) ∈ r.conns)) ∧
    (∃ r, FMSynth.connectAlgorithm "hybrid1" o g p s = Except.ok r ∧
      (∀ i : Fin 4, ((g i).id, ConnTarget.toNode 1) ∈ r.conns ↔ (i = 1 ∨ i = 3)) ∧
      (∃ m, ((g 0).id, ConnTarget.toNode m) ∈ r.conns ∧
        (m, ConnTarget.toFreqParam (o 1).id) ∈ r.conns) ∧
      (∃ m, ((g 2).id, ConnTarget.toNode m) ∈ r.conns ∧
        (m, ConnTarget.toFreqParam (o 3).id) ∈ r.conns) ∧
      (∀ i : Fin 4, ((g i).id, ConnTarget.toNode 1) ∈ r.conns ∨
        ∃ m j, ((g i).id, ConnTarget.toNode m) ∈ r.conns ∧
          (m, ConnTarget.toFreqParam (o j).id) ∈ r.conns)) ∧
    (∃ r, FMSynth.connectAlgorithm "hybrid2" o g p s = Except.ok r ∧
      (∀ i : Fin 4, ((g i).id, ConnTarget.toNode 1) ∈ r.conns ↔ (i = 2 ∨ i = 3)) ∧
      (∃ m, ((g 0).id, ConnTarget.toNode m) ∈ r.conns ∧
        (m, ConnTarget.toFreqParam (o 1).id) ∈ r.conns) ∧
      (∃ m, ((g 1).id, ConnTarget.toNode m) ∈ r.conns ∧
        (m, ConnTarget.toFreqParam (o 2).id) ∈ r.conns) ∧
      (∀ i : Fin 4, ((g i).id, ConnTarget.toNode 1) ∈ r.conns ∨
        ∃ m j, ((g i).id, ConnTarget.toNode m) ∈ r.conns ∧
          (m, ConnTarget.toFreqParam (o j).id) ∈ r.conns)) := by
  refine ⟨⟨_, connectAlgorithm_serial_eq o g p s h1 h2 h3, ?_, ?_, ?_, ?_, ?_⟩,
    ⟨_, connectAlgorithm_parallel_eq o g p s, ?_, ?_⟩,
    ⟨_, connectAlgorithm_hybrid1_eq o g p s h1 h3, ?_, ?_, ?_, ?_⟩,
    ⟨_, connectAlgorithm_hybrid2_eq o g p s h1 h2, ?_, ?_, ?_, ?_⟩⟩
  · -- serial carriers
    intro i
    dsimp only
    simp only [List.mem_append, List.mem_cons, List.not_mem_nil, or_false,
      Prod.mk.injEq, ConnTarget.toNode.injEq, reduceCtorEq, and_false, false_or,
      and_true]
    constructor
    · rintro (hin | ⟨hgi, hX⟩ | ⟨hgi, hX⟩ | ⟨hgi, hX⟩ | hlast)
      · exact absurd hin (hpre i _)
      · omega
      · omega
      · omega
      · exact hg i 3 hlast
    · rintro rfl
      right; right; right; right; rfl
  · exact ⟨s.nextId, by simp, by simp⟩
  · exact ⟨s.nextId + 1, by simp, by simp⟩
  · exact ⟨s.nextId + 2, by simp, by simp⟩
  · -- serial coverage
    intro i
    fin_cases i
    · exact Or.inr ⟨s.nextId, 1, by simp, by simp⟩
    · exact Or.inr ⟨s.nextId + 1, 2, by simp, by simp⟩
    · exact Or.inr ⟨s.nextId + 2, 3, by simp, by simp⟩
    · exact Or.inl (by simp)
  · -- parallel carriers
    intro i
    fin_cases i <;> simp
  · intro i
    exact Or.inl (by fin_cases i <;> simp)
  · -- hybrid1 carriers
    intro i
    dsimp only
    simp only [List.mem_append, List.mem_cons, List.not_mem_nil, or_false,
      Prod.mk.injEq, ConnTarget.toNode.injEq, reduceCtorEq, and_false, false_or,
      and_true]
    constructor
    · rintro (hin | ⟨hgi, hX⟩ | ⟨hgi, hX⟩ | hc1 | hc3)
      · exact absurd hin (hpre i _)
      · omega
      · omega
      · exact Or.inl (hg i 1 hc1)
      · exact Or.inr (hg i 3 hc3)
    · rintro (rfl | rfl)
      · right; right; right; left; rfl
      · right; right; right; right; rfl
  · exact ⟨s.nextId, by simp, by simp⟩
  · exact ⟨s.nextId + 1, by simp, by simp⟩
  · -- hybrid1 coverage
    intro i
    fin_cases i
    · exact Or.inr ⟨s.nextId, 1, by simp, by simp⟩
    · exact Or.inl (by simp)
    · exact Or.inr ⟨s.nextId + 1, 3, by simp, by simp⟩
    · exact Or.inl (by simp)
  · -- hybrid2 carriers
    intro i
    dsimp only
    simp only [List.mem_append, List.mem_cons, List.not_mem_nil, or_false,
      Prod.mk.injEq, ConnTarget.toNode.injEq, reduceCtorEq, and_false, false_or,
      and_true]
    constructor
    · rintro (hin | ⟨hgi, hX⟩ | ⟨hgi, hX⟩ | hc2 | hc3)
      · exact absurd hin (hpre i _)
      · omega
      · omega
      · exact Or.inl (hg i 2 hc2)
      · exact Or.inr (hg i 3 hc3)
    · rintro (rfl | rfl)
      · right; right; right; left; rfl
      · right; right; right; right; rfl
  · exact ⟨s.nextId, by simp, by simp⟩
  · exact ⟨s.nextId + 1, by simp, by simp⟩
  · -- hybrid2 coverage
    intro i
    fin_cases i
    · exact Or.inr ⟨s.nextId, 1, by simp, by simp⟩
    · exact Or.inr ⟨s.nextId + 1, 2, by simp, by simp⟩
    · exact Or.inl (by simp)
    · exact Or.inl (by simp)

/-- Witness for C6 on concrete nodes: the hybrid2 topology's carrier set
is exactly {2, 3}. -/
theorem c6_algorithm_topologies_witness :
    ∃ r, FMSynth.connectAlgorithm "hybrid2" exampleRouterOps exampleRouterGains exampleOps
        FMSynth.init = Except.ok r ∧
      (∀ i : Fin 4, ((exampleRouterGains i).id, ConnTarget.toNode 1) ∈ r.conns ↔
        (i = 2 ∨ i = 3)) := by
  obtain ⟨-, -, -, r, hr, hcar, -⟩ :=
    c6_algorithm_topologies exampleRouterOps exampleRouterGains exampleOps FMSynth.init
      rfl rfl rfl (by decide) (by decide)
      (by intro i tgt hmem; fin_cases i <;> simp [FMSynth.init, exampleRouterGains, mkGainNode] at hmem)
  exact ⟨r, hr, hcar⟩

/-! ### C4 -/

/-- C4: every successful trigger schedules all four generators to start at
`now` and stop at exactly `now + duration + max(release across the 4
operators)` — none earlier — and the LFO, when instantiated
(`depth > 0`), is scheduled to stop at that same time. -/
theorem c4_generator_stop_times (now bf dur : ℚ) (ps : Fin 4 → OperatorParams)
    (lfo : LFOParams) (alg : Option String) (pe : Option PitchEnvelopeParams)
    {s s' : VoiceState}
    (hreg : s.isPlaying = true ∨
      (s.operators = [] ∧ s.gains = [] ∧ s.envelopes = [] ∧
       s.feedbackNodes = [] ∧ s.feedbackGains = []))
    (hok : FMSynth.trigger now bf dur ps lfo alg pe s = Except.ok s') :
    s'.operators.length = 4 ∧
    (∀ n ∈ s'.operators, n.startTime = some now ∧
      n.stopTime = some (now + dur + maxRelease ((List.finRange 4).map ps))) ∧
    (0 < lfo.depth → ∃ l, s'.lfo = some l ∧
      l.stopTime = some (now + dur + maxRelease ((List.finRange 4).map ps))) := by
  obtain ⟨c1, c2, c3, c4, c5, c6, c7, c8, c9, c10, c11, c12⟩ :=
    trigger_ok_inv now bf dur ps lfo alg pe hreg hok
  refine ⟨by rw [c1]; rfl, ?_, ?_⟩
  · intro n hn
    rw [c1] at hn
    simp only [List.mem_cons, List.not_mem_nil, or_false] at hn
    rcases hn with rfl | rfl | rfl | rfl <;> exact ⟨rfl, rfl⟩
  · intro hd
    obtain ⟨l, hl, _, hstop⟩ := c11 hd
    exact ⟨l, hl, hstop⟩

/-- Witness for C4: a trigger with an active LFO from a fresh voice. -/
theorem c4_generator_stop_times_witness :
    (resultState (FMSynth.trigger 0 100 1 exampleOps { frequency := 5, depth := 1 } none none
        FMSynth.init)).operators.length = 4 ∧
    (∀ n ∈ (resultState (FMSynth.trigger 0 100 1 exampleOps { frequency := 5, depth := 1 }
        none none FMSynth.init)).operators,
      n.startTime = some 0 ∧
      n.stopTime = some (0 + 1 + maxRelease ((List.finRange 4).map exampleOps))) ∧
    (0 < ({ frequency := 5, depth := 1 } : LFOParams).depth →
      ∃ l, (resultState (FMSynth.trigger 0 100 1 exampleOps { frequency := 5, depth := 1 }
          none none FMSynth.init)).lfo = some l ∧
        l.stopTime = some (0 + 1 + maxRelease ((List.finRange 4).map exampleOps))) := by
  exact @c4_generator_stop_times 0 100 1 exampleOps { frequency := 5, depth := 1 } none none
    FMSynth.init
    (resultState (FMSynth.trigger 0 100 1 exampleOps { frequency := 5, depth := 1 } none none
      FMSynth.init))
    (Or.inr ⟨rfl, rfl, rfl, rfl, rfl⟩) rfl

/-! ### C3 -/

/-- The envelope's computed value at note end is exactly `sustain` when
the attack and decay fit inside the note (`attack + decay < duration`)
and the release is positive. -/
lemma envelopeSchedule_valueAt_noteEnd (now dur : ℚ) (p : OperatorParams)
    (ha : 0 ≤ p.attack) (hd : 0 ≤ p.decay) (hsum : p.attack + p.decay < dur)
    (hr : 0 < p.release) :
    (envelopeSchedule now dur p (AudioParam.default 0)).valueAt (now + dur) = p.sustain := by
  have hmaxa : max 0 p.attack = p.attack := max_eq_right ha
  have hmaxd : max 0 p.decay = p.decay := max_eq_right hd
  unfold envelopeSchedule AudioParam.valueAt AudioParam.setValueAtTime
    AudioParam.linearRampToValueAtTime AudioParam.default
  dsimp only
  rw [hmaxa, hmaxd]
  have h1 : now ≤ now + dur := by linarith
  have h2 : now + p.attack ≤ now + dur := by linarith
  have h3 : now + p.attack + p.decay ≤ now + dur := by linarith
  have h5 : ¬(now + dur + p.release ≤ now + dur) := by linarith
  simp only [evalEvents, AutomationEvent.time, AutomationEvent.target,
    if_pos h1, if_pos h2, if_pos h3, if_pos (le_refl (now + dur)), if_neg h5]
  rw [if_pos (by linarith : now + dur < now + dur + p.release)]
  have hz : now + dur - (now + dur) = 0 := by ring
  rw [hz]
  simp

/-- C3: for every operator of every successfully triggered note (with
nonnegative attack and decay), the envelope gain's scheduled automation is
exactly: hold 0 at `t0`, linear ramp to 1 ending at `t0 + attack`, linear
ramp to `sustain` ending at `t0 + attack + decay`, value `sustain` pinned
at `t0 + duration`, linear ramp to 0 ending at `t0 + duration + release`;
moreover whenever `attack + decay < duration` (and the release is
positive), the scheduled gain value at `t0 + duration` equals `sustain`. -/
theorem c3_envelope_schedule (now bf dur : ℚ) (ps : Fin 4 → OperatorParams)
    (lfo : LFOParams) (alg : Option String) (pe : Option PitchEnvelopeParams)
    {s s' : VoiceState}
    (hreg : s.isPlaying = true ∨
      (s.operators = [] ∧ s.gains = [] ∧ s.envelopes = [] ∧
       s.feedbackNodes = [] ∧ s.feedbackGains = []))
    (hok : FMSynth.trigger now bf dur ps lfo alg pe s = Except.ok s')
    (i : Fin 4) (ha : 0 ≤ (ps i).attack) (hd : 0 ≤ (ps i).decay) :
    ∃ env, s'.envelopes.get? i.val = some env ∧
      env.gain.events =
        [AutomationEvent.setValue 0 now,
         AutomationEvent.linearRamp 1 (now + (ps i).attack),
         AutomationEvent.linearRamp (ps i).sustain (now + (ps i).attack + (ps i).decay),
         AutomationEvent.setValue (ps i).sustain (now + dur),
         AutomationEvent.linearRamp 0 (now + dur + (ps i).release)] ∧
      ((ps i).attack + (ps i).decay < dur → 0 < (ps i).release →
        env.gain.valueAt (now + dur) = (ps i).sustain) := by
  obtain ⟨c1, c2, c3, c4, c5, c6, c7, c8, c9, c10, c11, c12⟩ :=
    trigger_ok_inv now bf dur ps lfo alg pe hreg hok
  have hgain : ∃ env, s'.envelopes.get? i.val = some env ∧
      env.gain = envelopeSchedule now dur (ps i) (AudioParam.default 0) := by
    fin_cases i <;> exact ⟨_, by rw [c2]; rfl, rfl⟩
  obtain ⟨env, hget, henvgain⟩ := hgain
  refine ⟨env, hget, ?_, ?_⟩
  · rw [henvgain]
    dsimp only [envelopeSchedule, AudioParam.setValueAtTime,
      AudioParam.linearRampToValueAtTime, AudioParam.default]
    rw [max_eq_right ha, max_eq_right hd]
    rfl
  · intro hsum hr
    rw [henvgain]
    exact envelopeSchedule_valueAt_noteEnd now dur (ps i) ha hd hsum hr

/-- Witness for C3: the third operator's envelope of a concrete note. -/
theorem c3_envelope_schedule_witness :
    ∃ env, (resultState (FMSynth.trigger 0 440 1 exampleOps silentLfo none none
        FMSynth.init)).envelopes.get? (2 : Fin 4).val = some env ∧
      env.gain.events =
        [AutomationEvent.setValue 0 0,
         AutomationEvent.linearRamp 1 (0 + (exampleOps 2).attack),
         AutomationEvent.linearRamp (exampleOps 2).sustain
           (0 + (exampleOps 2).attack + (exampleOps 2).decay),
         AutomationEvent.setValue (exampleOps 2).sustain (0 + 1),
         AutomationEvent.linearRamp 0 (0 + 1 + (exampleOps 2).release)] ∧
      ((exampleOps 2).attack + (exampleOps 2).decay < 1 → 0 < (exampleOps 2).release →
        env.gain.valueAt (0 + 1) = (exampleOps 2).sustain) := by
  exact @c3_envelope_schedule 0 440 1 exampleOps silentLfo none none FMSynth.init
    (resultState (FMSynth.trigger 0 440 1 exampleOps silentLfo none none FMSynth.init))
    (Or.inr ⟨rfl, rfl, rfl, rfl, rfl⟩) rfl 2
    (by norm_num [exampleOps, exampleOp]) (by norm_num [exampleOps, exampleOp])

/-! ### C8 -/

lemma applyReleaseRamps_get (now : ℚ) :
    ∀ (psl : List OperatorParams) (envs : List ANode) (i : ℕ)
      (p : OperatorParams) (env : ANode),
      psl.get? i = some p → envs.get? i = some env →
      (applyReleaseRamps now psl envs).get? i = some (releaseEnvelope now p env) := by
  intro psl
  induction psl with
  | nil =>
    intro envs i p env hp _
    simp at hp
  | cons q qs ih =>
    intro envs i p env hp he
    cases envs with
    | nil => simp at he
    | cons e es =>
      cases i with
      | zero =>
        simp only [List.get?] at hp he
        cases hp
        cases he
        rfl
      | succ n =>
        simp only [List.get?] at hp he
        exact ih es n p env hp he

/-- C8: a first `noteOff` while Sounding marks the release as scheduled,
rewrites each operator's envelope to: everything scheduled before `now`,
then the current computed value pinned at `now`, then a linear ramp to 0
over that operator's own `release` (cancelling the natural release events
at or after `now`), and arms the uncancelable teardown timeout for
`maxRelease*1000 + 100` ms; a second `noteOff` in any later state of that
call is a no-op, so two calls produce exactly the state of one. -/
theorem c8_noteoff_release_idempotent (now : ℚ) (s : VoiceState)
    (hplay : s.isPlaying = true) (hrel : s.releaseScheduled = false) :
    (FMSynth.noteOff now s).isPlaying = true ∧
    (FMSynth.noteOff now s).releaseScheduled = true ∧
    (∀ (i : ℕ) (p : OperatorParams) (env : ANode),
      s.currentParams.get? i = some p → s.envelopes.get? i = some env →
      ∃ env', (FMSynth.noteOff now s).envelopes.get? i = some env' ∧
        env'.gain.events =
          env.gain.events.filter (fun e => decide (e.time < now)) ++
            [AutomationEvent.setValue (env.gain.valueAt now) now,
             AutomationEvent.linearRamp 0 (now + p.release)]) ∧
    (FMSynth.noteOff now s).pendingTimeouts =
      s.pendingTimeouts ++ [maxRelease s.currentParams * 1000 + 100] ∧
    (∀ now2, FMSynth.noteOff now2 (FMSynth.noteOff now s) = FMSynth.noteOff now s) := by
  have hno : FMSynth.noteOff now s =
      { s with releaseScheduled := true,
               envelopes := applyReleaseRamps now s.currentParams s.envelopes,
               pendingTimeouts := s.pendingTimeouts ++ [maxRelease s.currentParams * 1000 + 100] } := by
    unfold FMSynth.noteOff
    rw [hplay, hrel]
    rfl
  rw [hno]
  refine ⟨hplay, rfl, ?_, rfl, ?_⟩
  · intro i p env hp he
    refine ⟨releaseEnvelope now p env, applyReleaseRamps_get now _ _ _ _ _ hp he, ?_⟩
    dsimp only [releaseEnvelope, AudioParam.cancelScheduledValues,
      AudioParam.setValueAtTime, AudioParam.linearRampToValueAtTime]
    simp [List.append_assoc]
  · intro now2
    unfold FMSynth.noteOff
    dsimp only
    rw [hplay]
    rfl

/-- Witness for C8 on a concrete Sounding state, with `noteOff` at
`t = 1/5` and a second call at `t = 3/10`. -/
theorem c8_noteoff_release_idempotent_witness :
    (FMSynth.noteOff (1/5) (resultState (FMSynth.trigger 0 440 1 exampleOps silentLfo none none
        FMSynth.init))).releaseScheduled = true ∧
    FMSynth.noteOff (3/10) (FMSynth.noteOff (1/5) (resultState (FMSynth.trigger 0 440 1
        exampleOps silentLfo none none FMSynth.init))) =
      FMSynth.noteOff (1/5) (resultState (FMSynth.trigger 0 440 1 exampleOps silentLfo none none
        FMSynth.init)) := by
  refine ⟨(c8_noteoff_release_idempotent (1/5) _ rfl rfl).2.1, ?_⟩
  exact (c8_noteoff_release_idempotent (1/5) _ rfl rfl).2.2.2.2 (3/10)

lemma connectAlgorithm_succeeds (alg : String) (o g : Fin 4 → ANode)
    (p : Fin 4 → OperatorParams) (s : VoiceState)
    (h1 : (o 1).kind = NodeKind.oscillator) (h2 : (o 2).kind = NodeKind.oscillator)
    (h3 : (o 3).kind = NodeKind.oscillator) :
    ∃ r, FMSynth.connectAlgorithm alg o g p s = Except.ok r := by
  by_cases hs : alg = "serial"
  · subst hs; exact ⟨_, connectAlgorithm_serial_eq o g p s h1 h2 h3⟩
  by_cases hp : alg = "parallel"
  · subst hp; exact ⟨_, connectAlgorithm_parallel_eq o g p s⟩
  by_cases hh1 : alg = "hybrid1"
  · subst hh1; exact ⟨_, connectAlgorithm_hybrid1_eq o g p s h1 h3⟩
  by_cases hh2 : alg = "hybrid2"
  · subst hh2; exact ⟨_, connectAlgorithm_hybrid2_eq o g p s h1 h2⟩
  exact ⟨_, connectAlgorithm_unknown_eq alg o g p s hs hp hh1 hh2⟩

lemma triggerCore_noise_lfo_error (now bf dur : ℚ) (ps : Fin 4 → OperatorParams)
    (lfo : LFOParams) (alg : Option String) (pe : Option PitchEnvelopeParams)
    (t : VoiceState) (hops : t.operators = [])
    (hnoise : (ps 0).useNoise = true) (hdepth : 0 < lfo.depth) :
    ∃ msg serr, FMSynth.triggerCore now bf dur ps lfo alg pe t = Except.error (msg, serr) ∧
      serr.operators.length = 4 ∧ serr.autoStopTimer = t.autoStopTimer ∧
      ∃ l, serr.lfo = some l ∧ l.startTime = none := by
  unfold FMSynth.triggerCore
  dsimp only [FMSynth.addOperator, mkOperatorSource, mkGainNode, mkDelayNode,
    mkOscillatorNode]
  rw [hops, hnoise]
  simp only [List.nil_append, show ((0:ℕ) == 0) = true from rfl,
    show ((1:ℕ) == 0) = false from rfl, show ((2:ℕ) == 0) = false from rfl,
    show ((3:ℕ) == 0) = false from rfl, Bool.true_and, Bool.false_and, reduceIte]
  generalize Option.getD alg "serial" = a
  by_cases hs : a = "serial"
  · subst hs
    rw [connectAlgorithm_serial_eq]
    · try dsimp only
      rw [if_pos hdepth]
      try dsimp only
      simp only [FMSynth.connectLfoToOperators, connectToFrequency_noise]
      exact ⟨_, _, rfl, rfl, rfl, _, rfl, rfl⟩
    · rfl
    · rfl
    · rfl
  by_cases hp : a = "parallel"
  · subst hp
    rw [connectAlgorithm_parallel_eq]
    try dsimp only
    rw [if_pos hdepth]
    try dsimp only
    simp only [FMSynth.connectLfoToOperators, connectToFrequency_noise]
    exact ⟨_, _, rfl, rfl, rfl, _, rfl, rfl⟩
  by_cases hh1 : a = "hybrid1"
  · subst hh1
    rw [connectAlgorithm_hybrid1_eq]
    · try dsimp only
      rw [if_pos hdepth]
      try dsimp only
      simp only [FMSynth.connectLfoToOperators, connectToFrequency_noise]
      exact ⟨_, _, rfl, rfl, rfl, _, rfl, rfl⟩
    · rfl
    · rfl
  by_cases hh2 : a = "hybrid2"
  · subst hh2
    rw [connectAlgorithm_hybrid2_eq]
    · try dsimp only
      rw [if_pos hdepth]
      try dsimp only
      simp only [FMSynth.connectLfoToOperators, connectToFrequency_noise]
      exact ⟨_, _, rfl, rfl, rfl, _, rfl, rfl⟩
    · rfl
    · rfl
  rw [connectAlgorithm_unknown_eq _ _ _ _ _ hs hp hh1 hh2]
  try dsimp only
  rw [if_pos hdepth]
  try dsimp only
  simp only [FMSynth.connectLfoToOperators, connectToFrequency_noise]
  exact ⟨_, _, rfl, rfl, rfl, _, rfl, rfl⟩

/-- C10: triggering with `useNoise` on operator 0 and a positive LFO depth
throws: the LFO wiring step reaches operator 0's buffer (noise) source,
which has no `frequency` AudioParam, so the connect raises; the error
state shows the note graph partially constructed — the four operator units
already registered and the LFO created but never started — and the
auto-stop timer never armed. -/
theorem c10_noise_with_lfo_throws (now bf dur : ℚ) (ps : Fin 4 → OperatorParams)
    (lfo : LFOParams) (alg : Option String) (pe : Option PitchEnvelopeParams)
    (s : VoiceState)
    (hreg : s.isPlaying = true ∨
      (s.operators = [] ∧ s.gains = [] ∧ s.envelopes = [] ∧
       s.feedbackNodes = [] ∧ s.feedbackGains = []))
    (hnoise : (ps 0).useNoise = true) (hdepth : 0 < lfo.depth) :
    ∃ msg serr, FMSynth.trigger now bf dur ps lfo alg pe s = Except.error (msg, serr) ∧
      serr.operators.length = 4 ∧ serr.autoStopTimer = none ∧
      ∃ l, serr.lfo = some l ∧ l.startTime = none := by
  cases hb : s.isPlaying with
  | true =>
    obtain ⟨msg, serr, heq, hlen, hauto, hlfo⟩ :=
      triggerCore_noise_lfo_error now bf dur ps lfo alg pe
        { FMSynth.cleanupImmediate now { s with cleanupTimer := none, autoStopTimer := none } with
          isPlaying := true, releaseScheduled := false,
          currentParams := (List.finRange 4).map ps } rfl hnoise hdepth
    refine ⟨msg, serr, ?_, hlen, by simpa using hauto, hlfo⟩
    unfold FMSynth.trigger
    dsimp only
    rw [hb, if_pos rfl]
    exact heq
  | false =>
    rcases hreg with hpl | hemp
    · rw [hb] at hpl
      exact absurd hpl (by simp)
    · obtain ⟨msg, serr, heq, hlen, hauto, hlfo⟩ :=
        triggerCore_noise_lfo_error now bf dur ps lfo alg pe
          { s with
            cleanupTimer := none, autoStopTimer := none,
            isPlaying := true, releaseScheduled := false,
            currentParams := (List.finRange 4).map ps } (by dsimp only; exact hemp.1)
          hnoise hdepth
      refine ⟨msg, serr, ?_, hlen, by simpa using hauto, hlfo⟩
      unfold FMSynth.trigger
      dsimp only
      rw [hb, if_neg (by simp)]
      exact heq

/-- Operator parameters with noise enabled on operator 0. -/
def noiseOps : Fin 4 → OperatorParams :=
  fun i => if i = 0 then { exampleOp with useNoise := true } else exampleOp

/-- Witness for C10: a concrete noise-plus-LFO trigger throws. -/
theorem c10_noise_with_lfo_throws_witness :
    ∃ msg serr, FMSynth.trigger 0 100 1 noiseOps { frequency := 5, depth := 1 } none none
        FMSynth.init = Except.error (msg, serr) ∧
      serr.operators.length = 4 ∧ serr.autoStopTimer = none ∧
      ∃ l, serr.lfo = some l ∧ l.startTime = none := by
  exact c10_noise_with_lfo_throws 0 100 1 noiseOps { frequency := 5, depth := 1 } none none
    FMSynth.init (Or.inr ⟨rfl, rfl, rfl, rfl, rfl⟩) rfl (by norm_num)

/-! ### C1 -/

/-- C1 counterexample: trigger at `t = 0`; the auto-stop timer fires at
`t = 2` (the voice turns Idle and arms the 10 ms cleanup timer that would
disconnect the graph); a new trigger at `t = 2.1` — before the cleanup
timer fires — cancels that timer and, because `isPlaying` is already
false, skips the forced teardown: the call returns normally with the old
note's four operators still registered alongside the new four (eight in
total), and every output gain of the old note still has outgoing
connections.  So after this `trigger()` call more than one note graph is
live, refuting the claim for the Idle-with-pending-cleanup state. -/
theorem c1_counterexample_stale_graph_survives :
    (FMSynth.fireAutoStop 2 (resultState (FMSynth.trigger 0 100 1 exampleOps silentLfo none
      none FMSynth.init))).isPlaying = false ∧
    (FMSynth.fireAutoStop 2 (resultState (FMSynth.trigger 0 100 1 exampleOps silentLfo none
      none FMSynth.init))).cleanupTimer = some 10 ∧
    FMSynth.trigger (21/10) 100 1 exampleOps silentLfo none none
        (FMSynth.fireAutoStop 2 (resultState (FMSynth.trigger 0 100 1 exampleOps silentLfo
          none none FMSynth.init))) =
      Except.ok (resultState (FMSynth.trigger (21/10) 100 1 exampleOps silentLfo none none
        (FMSynth.fireAutoStop 2 (resultState (FMSynth.trigger 0 100 1 exampleOps silentLfo
          none none FMSynth.init))))) ∧
    (resultState (FMSynth.trigger (21/10) 100 1 exampleOps silentLfo none none
      (FMSynth.fireAutoStop 2 (resultState (FMSynth.trigger 0 100 1 exampleOps silentLfo
        none none FMSynth.init))))).operators.length = 8 ∧
    ((resultState (FMSynth.trigger 0 100 1 exampleOps silentLfo none none
      FMSynth.init)).gains.all (fun gnode =>
        (resultState (FMSynth.trigger (21/10) 100 1 exampleOps silentLfo none none
          (FMSynth.fireAutoStop 2 (resultState (FMSynth.trigger 0 100 1 exampleOps silentLfo
            none none FMSynth.init))))).conns.any (fun e => e.1 == gnode.id))) = true := by
  exact ⟨rfl, rfl, rfl, rfl, rfl⟩

/-- C1 (amended): every `trigger` call cancels the pending cleanup and
auto-stop timers; when the voice is Sounding or Releasing (`isPlaying`),
or genuinely idle with no residual graph, a successful call leaves exactly
one live note graph — each registry holds exactly the four new nodes and
no previously registered node retains any outgoing connection.  (When the
voice is Idle but a prior graph is still awaiting its cleanup timer, the
code skips the forced teardown and the old nodes survive — see the
counterexample.) -/
theorem c1_retrigger_single_graph (now bf dur : ℚ) (ps : Fin 4 → OperatorParams)
    (lfo : LFOParams) (alg : Option String) (pe : Option PitchEnvelopeParams)
    {s s' : VoiceState}
    (hreg : s.isPlaying = true ∨
      (s.operators = [] ∧ s.gains = [] ∧ s.envelopes = [] ∧
       s.feedbackNodes = [] ∧ s.feedbackGains = [] ∧ s.lfo = none ∧ s.lfoGain = none))
    (hwf : ∀ id ∈ registeredIds s, id < s.nextId)
    (hok : FMSynth.trigger now bf dur ps lfo alg pe s = Except.ok s') :
    s'.cleanupTimer = none ∧
    s'.operators.length = 4 ∧ s'.gains.length = 4 ∧ s'.envelopes.length = 4 ∧
    s'.feedbackNodes.length = 4 ∧ s'.feedbackGains.length = 4 ∧
    (∀ id ∈ registeredIds s, ∀ tgt, (id, tgt) ∉ s'.conns) := by
  obtain ⟨c1, c2, c3, c4, c5, c6, c7, c8, c9, c10, c11, c12⟩ :=
    trigger_ok_inv now bf dur ps lfo alg pe
      (hreg.imp id (fun h => ⟨h.1, h.2.1, h.2.2.1, h.2.2.2.1, h.2.2.2.2.1⟩)) hok
  refine ⟨c9, by rw [c1]; rfl, by rw [c3]; rfl, by rw [c2]; rfl, by rw [c4]; rfl,
    by rw [c5]; rfl, ?_⟩
  intro id hid tgt hmem
  rcases c12 (id, tgt) hmem with hin | hge
  · cases hb : s.isPlaying with
    | true =>
      rw [if_pos hb] at hin
      simp only [removeConnsFrom, List.mem_filter, Bool.not_eq_eq_eq_not,
        Bool.not_true, decide_eq_false_iff_not] at hin
      exact absurd hid (by simpa using hin.2)
    | false =>
      rcases hreg with hpl | hemp
      · rw [hb] at hpl
        exact absurd hpl (by simp)
      · rw [registeredIds, hemp.1, hemp.2.1, hemp.2.2.1, hemp.2.2.2.1, hemp.2.2.2.2.1,
          hemp.2.2.2.2.2.1, hemp.2.2.2.2.2.2] at hid
        simp at hid
  · exact absurd hge (by have := hwf id hid; omega)

/-- Witness for C1's amended theorem: a retrigger of a Sounding voice. -/
theorem c1_retrigger_single_graph_witness :
    (resultState (FMSynth.trigger (1/2) 200 1 exampleOps silentLfo none none
      (resultState (FMSynth.trigger 0 100 1 exampleOps silentLfo none none
        FMSynth.init)))).cleanupTimer = none ∧
    (resultState (FMSynth.trigger (1/2) 200 1 exampleOps silentLfo none none
      (resultState (FMSynth.trigger 0 100 1 exampleOps silentLfo none none
        FMSynth.init)))).operators.length = 4 ∧
    (resultState (FMSynth.trigger (1/2) 200 1 exampleOps silentLfo none none
      (resultState (FMSynth.trigger 0 100 1 exampleOps silentLfo none none
        FMSynth.init)))).gains.length = 4 ∧
    (resultState (FMSynth.trigger (1/2) 200 1 exampleOps silentLfo none none
      (resultState (FMSynth.trigger 0 100 1 exampleOps silentLfo none none
        FMSynth.init)))).envelopes.length = 4 ∧
    (resultState (FMSynth.trigger (1/2) 200 1 exampleOps silentLfo none none
      (resultState (FMSynth.trigger 0 100 1 exampleOps silentLfo none none
        FMSynth.init)))).feedbackNodes.length = 4 ∧
    (resultState (FMSynth.trigger (1/2) 200 1 exampleOps silentLfo none none
      (resultState (FMSynth.trigger 0 100 1 exampleOps silentLfo none none
        FMSynth.init)))).feedbackGains.length = 4 ∧
    (∀ id ∈ registeredIds (resultState (FMSynth.trigger 0 100 1 exampleOps silentLfo none none
        FMSynth.init)), ∀ tgt,
      (id, tgt) ∉ (resultState (FMSynth.trigger (1/2) 200 1 exampleOps silentLfo none none
        (resultState (FMSynth.trigger 0 100 1 exampleOps silentLfo none none
          FMSynth.init)))).conns) := by
  exact @c1_retrigger_single_graph (1/2) 200 1 exampleOps silentLfo none none
    (resultState (FMSynth.trigger 0 100 1 exampleOps silentLfo none none FMSynth.init))
    (resultState (FMSynth.trigger (1/2) 200 1 exampleOps silentLfo none none
      (resultState (FMSynth.trigger 0 100 1 exampleOps silentLfo none none FMSynth.init))))
    (Or.inl rfl) (by decide) rfl
